import Mathlib

/-!
The 40h protocol driver (src/proto/40h.c)

A shallow embedding of the command encoder and the event decoder of the 40h
protocol driver, with theorems about what each operation hands to the transport.

Conventions of the embedding:

* machine integers are `Nat` or `Int`; a store into a `uint8_t` is an explicit
  `% 256`, a conversion to `size_t` an explicit `% 2 ^ w`;
* a pointer to bytes (`const uint8_t *`) is the function from an offset to the
  value stored there, and reading a byte through it is `p i % 256`;
* the session `monome_t` carries the transport: every buffer handed to
  `monome_platform_write` is appended to `written`, and what the transport
  reports for a call is an arbitrary function of the call's index and buffer;
* the headers `40h.h`, `rotation.h`, `monome.h` and `platform.h` are not part
  of the sources at hand, so the constants they declare are the fields of
  `decls`, a parameter of every operation, and the rotation callbacks are
  fields of the session's `monome_rotspec_t`.
-/

namespace Proto40h

/-! ## Data model -/

/-- Constants of the headers the driver includes: the message enumeration
`proto_40h_message_t` of `40h.h` and the flag masks of `rotation.h`. -/
structure decls where
  PROTO_40h_BUTTON_DOWN : Nat
  PROTO_40h_BUTTON_UP : Nat
  PROTO_40h_AUX_INPUT : Nat
  PROTO_40h_LED_ON : Nat
  PROTO_40h_LED_OFF : Nat
  PROTO_40h_INTENSITY : Nat
  PROTO_40h_MODE : Nat
  PROTO_40h_LED_ROW : Nat
  PROTO_40h_LED_COL : Nat
  ROW_COL_SWAP : Nat
  ROW_REVBITS : Nat
  COL_REVBITS : Nat
  /-- Whether `__LP64__` is defined: `size_t` has 64 bits, otherwise 32. -/
  LP64 : Bool

/-- Modelled from the spec: the kind of an event, `ButtonDown | ButtonUp`
(the enumeration of `monome.h` is not among the sources). -/
inductive monome_event_type_t where
  | MONOME_BUTTON_UP
  | MONOME_BUTTON_DOWN
deriving DecidableEq, Repr

/-- The caller's event record `monome_event_t`, as far as `next_event` writes it. -/
structure monome_event_t where
  event_type : monome_event_type_t
  x : Nat
  y : Nat
deriving DecidableEq, Repr

/-- The entry `ROTSPEC(monome)` of the rotation table: the callbacks behind
`ROTATE_COORDS` and `UNROTATE_COORDS` (they receive the session's extent), the
frame callback (it receives the offsets and the working buffer and leaves the
buffer it returns), and the flag word. -/
structure monome_rotspec_t where
  output_cb : Nat → Nat → Nat → Nat → Nat × Nat
  input_cb : Nat → Nat → Nat → Nat → Nat × Nat
  frame_cb : Nat → Nat → Nat → Nat → (Nat → Nat) → (Nat → Nat)
  flags : Nat

/-- What one call of `monome_platform_read` does: the value it returns and the
bytes it has stored at the start of the caller's buffer. -/
structure platform_read_t where
  ret : Int
  stored : List Nat

/-- The session `monome_t`: extent, orientation and transport. -/
structure monome_t where
  rows : Nat
  cols : Nat
  rotspec : monome_rotspec_t
  /-- The buffers handed to `monome_platform_write` so far, oldest first. -/
  written : List (List Nat)
  /-- The result `monome_platform_write` reports for call number `k` with buffer `buf`. -/
  wres : Nat → List Nat → Int
  /-- How many times `monome_platform_read` has been called. -/
  nread : Nat
  /-- What call number `k` of `monome_platform_read` does. -/
  rres : Nat → platform_read_t

/-! ## Macros of `rotation.h` -/

/-- The macro `ROTATE_COORDS(monome, x, y)`: the pair left in `(x, y)`. -/
def ROTATE_COORDS (m : monome_t) (x y : Nat) : Nat × Nat :=
  m.rotspec.output_cb m.rows m.cols x y

/-- The macro `UNROTATE_COORDS(monome, x, y)`: the pair left in `(x, y)`. -/
def UNROTATE_COORDS (m : monome_t) (x y : Nat) : Nat × Nat :=
  m.rotspec.input_cb m.rows m.cols x y

/-- Modelled from the spec: `REVERSE_BYTE` of `rotation.h`, "a fixed 8-bit
bit-order inversion (bit 0 ↔ bit 7, bit 1 ↔ bit 6, etc.)". -/
def REVERSE_BYTE (b : Nat) : Nat :=
  ((List.range 8).map (fun i => ((b >>> i) &&& 1) <<< (7 - i))).foldl (· ||| ·) 0

/-! ## Transport -/

/-- The platform write: the transport sees the first `bufsize` bytes of `buf`. -/
def monome_platform_write (m : monome_t) (buf : List Nat) (bufsize : Nat) : Int × monome_t :=
  (m.wres m.written.length (buf.take bufsize),
    { m with written := m.written ++ [buf.take bufsize] })

/-- The platform read into a zeroed buffer of `nbyte` bytes: the returned value
and the buffer afterwards. -/
def monome_platform_read (m : monome_t) (nbyte : Nat) : Int × List Nat × monome_t :=
  let r := m.rres m.nread
  (r.ret,
    (List.range nbyte).map (fun i => (r.stored.getD i 0) % 256),
    { m with nread := m.nread + 1 })

/-- The function `monome_write` (40h.c:31). -/
def monome_write (m : monome_t) (buf : List Nat) (bufsize : Nat) : Int × monome_t :=
  let r := monome_platform_write m buf bufsize
  if r.1 = (bufsize : Int) then (0, r.2) else (-1, r.2)

/-- A counting loop `for (i = start; ...; i++) body`, run for `n` rounds from
counter `i`: the counter on exit and the state. -/
def for_loop {σ : Type} (body : Nat → σ → σ) : Nat → Nat → σ → Nat × σ
  | 0, i, s => (i, s)
  | n + 1, i, s => for_loop body n (i + 1) (body i s)

/-- The value of `!v` in C. -/
def lnot (v : Int) : Nat := if v = 0 then 1 else 0

/-! ## The encoder -/

/-- The function `proto_40h_led_col_row` (40h.c:38). `data` is the pointer argument. -/
def proto_40h_led_col_row (K : decls) (m : monome_t) (mode : Nat) (address : Nat)
    (data : Nat → Nat) : Int × monome_t :=
  let xaddress := address
  let r := ROTATE_COORDS m xaddress address
  let xaddress := r.1
  let address := r.2
  -- switch( mode ): the address and buf[1], or the default case
  let sw : Option (Nat × Nat) :=
    if mode = K.PROTO_40h_LED_ROW then
      some (xaddress,
        if m.rotspec.flags &&& K.ROW_REVBITS ≠ 0 then REVERSE_BYTE (data 0 % 256) % 256
        else data 0 % 256)
    else if mode = K.PROTO_40h_LED_COL then
      some (address,
        if m.rotspec.flags &&& K.COL_REVBITS ≠ 0 then REVERSE_BYTE (data 0 % 256) % 256
        else data 0 % 256)
    else none
  match sw with
  | none => (-1, m)
  | some (address, buf1) =>
    let mode :=
      if m.rotspec.flags &&& K.ROW_COL_SWAP ≠ 0 then
        (lnot ((mode : Int) - (K.PROTO_40h_LED_ROW : Int)) <<< 4) + K.PROTO_40h_LED_ROW
      else mode
    let buf0 := (mode ||| (address &&& 0x7)) % 256
    monome_write m [buf0, buf1] 2

/-- The function `proto_40h_clear` (40h.c:79). -/
def proto_40h_clear (K : decls) (m : monome_t) (_status : Nat) : Int × monome_t :=
  let r := for_loop
    (fun i (s : monome_t) => (monome_write s [(K.PROTO_40h_LED_ROW ||| i) % 256, 0] 2).2) 8 0 m
  (((2 * r.1 : Nat) : Int), r.2)

/-- The function `proto_40h_intensity` (40h.c:91). -/
def proto_40h_intensity (K : decls) (m : monome_t) (brightness : Nat) : Int × monome_t :=
  monome_write m [K.PROTO_40h_INTENSITY % 256, brightness % 256] 2

/-- The function `proto_40h_mode` (40h.c:96). -/
def proto_40h_mode (_K : decls) (m : monome_t) (_mode : Nat) : Int × monome_t :=
  (0, m)

/-- The function `proto_40h_led` (40h.c:106). -/
def proto_40h_led (K : decls) (m : monome_t) (x y on_ : Nat) : Int × monome_t :=
  let r := ROTATE_COORDS m x y
  let x := r.1 &&& 0x7
  let y := r.2 &&& 0x7
  let buf0 := (K.PROTO_40h_LED_OFF + lnot (lnot (on_ : Int))) % 256
  let buf1 := ((x <<< 4) ||| y) % 256
  monome_write m [buf0, buf1] 2

/-- The function `proto_40h_led_col` (40h.c:120). -/
def proto_40h_led_col (K : decls) (m : monome_t) (col _offset _count : Nat)
    (data : Nat → Nat) : Int × monome_t :=
  proto_40h_led_col_row K m K.PROTO_40h_LED_COL col data

/-- The function `proto_40h_led_row` (40h.c:125). -/
def proto_40h_led_row (K : decls) (m : monome_t) (row _offset _count : Nat)
    (data : Nat → Nat) : Int × monome_t :=
  proto_40h_led_col_row K m K.PROTO_40h_LED_ROW row data

/-- A store of `n` bytes read at `src + so` to `mem + dst`, as the assignment
`*((uintN_t *) &mem[dst]) = *(((uintN_t *) src) + k)` performs it. -/
def store_bytes (mem : Nat → Nat) (dst : Nat) (src : Nat → Nat) (so n : Nat) : Nat → Nat :=
  fun i => if dst ≤ i ∧ i < dst + n then src (so + (i - dst)) % 256 else mem i

/-- The function `proto_40h_led_frame` (40h.c:130), byte by byte. `stack` is the content
of the storage of `buf` on entry (offset `i` is `buf[i]`; `buf` has 8 elements, so
offsets from 8 on lie behind it): the array has no initialiser. Here the byte behind
`buf` belongs to no other object, so the store to offset 8 disturbs nothing that is
read afterwards: this definition says which bytes are copied where and which
commands are built from them. In C that store is undefined behaviour and the
function has no defined result; that reading is `proto_40h_led_frame_checked`. -/
def proto_40h_led_frame (K : decls) (m : monome_t) (x_off y_off : Nat)
    (frame_data : Nat → Nat) (stack : Nat → Nat) : Int × monome_t :=
  let buf := stack
  let ret : Int := 0
  let buf :=
    if K.LP64 then store_bytes buf 1 frame_data 0 8
    else store_bytes (store_bytes buf 1 frame_data 0 4) 5 frame_data 4 4
  let buf := m.rotspec.frame_cb m.rows m.cols x_off y_off buf
  let r := for_loop
    (fun i (s : Int × monome_t) =>
      let c := proto_40h_led_col_row K s.2 K.PROTO_40h_LED_ROW i (fun j => buf (i + j))
      (s.1 + c.1, c.2)) 8 0 (ret, m)
  r.2

/-! ## The decoder -/

/-- The conversion of a signed result to `size_t`. -/
def to_size_t (K : decls) (v : Int) : Nat :=
  (v % (2 : Int) ^ (if K.LP64 then 64 else 32)).toNat

/-- The function `proto_40h_next_event` (40h.c:153): the returned value, the caller's event
afterwards and the session. -/
def proto_40h_next_event (K : decls) (m : monome_t) (e : monome_event_t) :
    Int × monome_event_t × monome_t :=
  let rd := monome_platform_read m 2
  let buf := rd.2.1
  let m := rd.2.2
  -- the comparison is made in size_t: sizeof(buf) is unsigned
  if to_size_t K rd.1 < 2 then (0, e, m)
  else
    let buf0 := buf.getD 0 0
    let buf1 := buf.getD 1 0
    if buf0 = K.PROTO_40h_BUTTON_DOWN ∨ buf0 = K.PROTO_40h_BUTTON_UP then
      let ty :=
        if buf0 = K.PROTO_40h_BUTTON_DOWN then monome_event_type_t.MONOME_BUTTON_DOWN
        else monome_event_type_t.MONOME_BUTTON_UP
      let u := UNROTATE_COORDS m (buf1 >>> 4) (buf1 &&& 0xF)
      (1, { event_type := ty, x := u.1, y := u.2 }, m)
    else if buf0 = K.PROTO_40h_AUX_INPUT then (0, e, m)
    else (0, e, m)

/-! ## Concrete sessions -/

/-- An assignment of the constants: the message values of the 40h serial
protocol, with `PROTO_40h_LED_ON = PROTO_40h_LED_OFF + 1` and
`PROTO_40h_LED_COL = PROTO_40h_LED_ROW + 0x10` as the encoder's arithmetic
expects, one bit per flag, and an LP64 platform. The operations take the
constants as a parameter; this assignment serves to evaluate them. -/
def K40h : decls where
  PROTO_40h_BUTTON_DOWN := 0x01
  PROTO_40h_BUTTON_UP := 0x00
  PROTO_40h_AUX_INPUT := 0xE0
  PROTO_40h_LED_ON := 0x21
  PROTO_40h_LED_OFF := 0x20
  PROTO_40h_INTENSITY := 0x30
  PROTO_40h_MODE := 0x40
  PROTO_40h_LED_ROW := 0x70
  PROTO_40h_LED_COL := 0x80
  ROW_COL_SWAP := 1
  ROW_REVBITS := 2
  COL_REVBITS := 4
  LP64 := true

/-- The identity rotation: the coordinate callback of the orientation of 0 degrees. -/
def r0_cb (_rows _cols x y : Nat) : Nat × Nat := (x, y)

/-- The frame callback that leaves the buffer unchanged. -/
def r0_frame_cb (_rows _cols _x_off _y_off : Nat) (buf : Nat → Nat) : Nat → Nat := buf

/-- The identity orientation: identity callbacks, all flags clear. -/
def rotspec_0 : monome_rotspec_t where
  output_cb := r0_cb
  input_cb := r0_cb
  frame_cb := r0_frame_cb
  flags := 0

/-- The difference `a - b` of two `uint_t`, which wraps around. -/
def usub (a b : Nat) : Nat := (((a : Int) - (b : Int)) % (2 : Int) ^ 32).toNat

/-- Modelled from the spec: `rotate` of §4.1 for the orientation of 90 degrees
(`rotation.c` is not among the sources); the last column is `cols - 1`. -/
def r90_output_cb (_rows cols x y : Nat) : Nat × Nat := (y, usub (usub cols 1) x)

/-- Modelled from the spec: `unrotate` of §4.1 for the orientation of 90 degrees,
the exact inverse of `r90_output_cb`. -/
def r90_input_cb (_rows cols x y : Nat) : Nat × Nat := (usub (usub cols 1) y, x)

/-- Modelled from the spec: `rotate` and `unrotate` of §4.1 for the orientation of
180 degrees, which is its own inverse; the last row is `rows - 1`. -/
def r180_cb (rows cols x y : Nat) : Nat × Nat := (usub (usub cols 1) x, usub (usub rows 1) y)

/-- Modelled from the spec: `rotate` of §4.1 for the orientation of 270 degrees. -/
def r270_output_cb (rows _cols x y : Nat) : Nat × Nat := (usub (usub rows 1) y, x)

/-- Modelled from the spec: `unrotate` of §4.1 for the orientation of 270 degrees,
the exact inverse of `r270_output_cb`. -/
def r270_input_cb (rows _cols x y : Nat) : Nat × Nat := (y, usub (usub rows 1) x)

/-- The orientation of 90 degrees with the given frame callback and flag word. -/
def rotspec_90 (frame_cb : Nat → Nat → Nat → Nat → (Nat → Nat) → (Nat → Nat))
    (flags : Nat) : monome_rotspec_t where
  output_cb := r90_output_cb
  input_cb := r90_input_cb
  frame_cb := frame_cb
  flags := flags

/-- A fresh session of the given extent and orientation on a transport that
accepts every buffer whole and has nothing to read. -/
def session (rows cols : Nat) (rot : monome_rotspec_t) : monome_t where
  rows := rows
  cols := cols
  rotspec := rot
  written := []
  wres := fun _ buf => (buf.length : Int)
  nread := 0
  rres := fun _ => { ret := 0, stored := [] }

/-- The session `m` on a transport whose reads all behave as `r`. -/
def with_read (m : monome_t) (r : platform_read_t) : monome_t :=
  { m with rres := fun _ => r }

/-- The bytes of a list as a pointer to its first element. -/
def ptr (l : List Nat) : Nat → Nat := fun i => l.getD i 0

/-! ## The relabeling, the rotation table and the accounts of the transport -/

/-- The relabeling of `mode` under ROW_COL_SWAP (40h.c:68), the expression
`(!(mode - PROTO_40h_LED_ROW) << 4) + PROTO_40h_LED_ROW`. -/
def row_col_swap (K : decls) (mode : Nat) : Nat :=
  (lnot ((mode : Int) - (K.PROTO_40h_LED_ROW : Int)) <<< 4) + K.PROTO_40h_LED_ROW

/-- Modelled from the spec: the orientations of a session, "0°/90°/180°/270°"
(the enumeration of `monome.h` is not among the sources). -/
inductive monome_rotate_t where
  | MONOME_ROTATE_0
  | MONOME_ROTATE_90
  | MONOME_ROTATE_180
  | MONOME_ROTATE_270
deriving DecidableEq, Repr

/-- Modelled from the spec: `rotate(orientation, x, y) -> (x', y')` of §4.1, the
transform behind `ROTATE_COORDS`, on a session of the given extent. -/
def rotate (O : monome_rotate_t) (rows cols x y : Nat) : Nat × Nat :=
  match O with
  | .MONOME_ROTATE_0 => r0_cb rows cols x y
  | .MONOME_ROTATE_90 => r90_output_cb rows cols x y
  | .MONOME_ROTATE_180 => r180_cb rows cols x y
  | .MONOME_ROTATE_270 => r270_output_cb rows cols x y

/-- Modelled from the spec: `unrotate` of §4.1, the transform behind
`UNROTATE_COORDS`, on a session of the given extent. -/
def unrotate (O : monome_rotate_t) (rows cols x y : Nat) : Nat × Nat :=
  match O with
  | .MONOME_ROTATE_0 => r0_cb rows cols x y
  | .MONOME_ROTATE_90 => r90_input_cb rows cols x y
  | .MONOME_ROTATE_180 => r180_cb rows cols x y
  | .MONOME_ROTATE_270 => r270_input_cb rows cols x y

/-- Modelled from the spec: the entry of the rotation table for the orientation
`O`, with the given frame callback and flag word. -/
def rotspec_of (O : monome_rotate_t)
    (frame_cb : Nat → Nat → Nat → Nat → (Nat → Nat) → (Nat → Nat)) (flags : Nat) :
    monome_rotspec_t where
  output_cb := rotate O
  input_cb := unrotate O
  frame_cb := frame_cb
  flags := flags

/-- The session `m` on a transport whose writes report `w k buf` for call `k`. -/
def with_write (m : monome_t) (w : Nat → List Nat → Int) : monome_t :=
  { m with wres := w }

/-- The session `m` with the flag word `flags` in its orientation. -/
def with_flags (m : monome_t) (flags : Nat) : monome_t :=
  { m with rotspec := { m.rotspec with flags := flags } }

/-- The bytes the transport accepted in the calls number `k0`, ..., `k0 + n - 1`
of `monome_platform_write`, read off the log of the buffers: the sum of what it
reported, a call that reported an error (a negative value) counting for none. -/
def bytes_accepted (wres : Nat → List Nat → Int) (log : List (List Nat)) (k0 n : Nat) : Int :=
  ((List.range n).map (fun k => max 0 (wres (k0 + k) (log.getD (k0 + k) [])))).sum

/-- How many of the calls number `k0`, ..., `k0 + n - 1` of `monome_platform_write`
did not report the 2 bytes of the command. -/
def failed_writes (wres : Nat → List Nat → Int) (log : List (List Nat)) (k0 n : Nat) : Nat :=
  ((List.range n).filter (fun k => decide (wres (k0 + k) (log.getD (k0 + k) []) ≠ 2))).length

/-- The copy at the top of `proto_40h_led_frame` (40h.c:138-143): the content of the
storage of `buf` after it. -/
def led_frame_copy (K : decls) (stack frame_data : Nat → Nat) : Nat → Nat :=
  if K.LP64 then store_bytes stack 1 frame_data 0 8
  else store_bytes (store_bytes stack 1 frame_data 0 4) 5 frame_data 4 4

/-- The offsets from `buf` that the copy of `proto_40h_led_frame` stores to: the 8
bytes from `&buf[1]`, or the 4 bytes from `&buf[1]` and the 4 from `&buf[5]`. -/
def led_frame_store_offsets (K : decls) : List Nat :=
  if K.LP64 then (List.range 8).map (fun j => 1 + j)
  else (List.range 4).map (fun j => 1 + j) ++ (List.range 4).map (fun j => 5 + j)

/-- The offsets from `buf` that the loop of `proto_40h_led_frame` reads: round `i`
passes `&buf[i]`, which `proto_40h_led_col_row` dereferences. -/
def led_frame_load_offsets : List Nat :=
  (List.range 8).map (fun i => i + 0)

/-- A store of `n` bytes to `mem + dst`, with `mem` an array of `size` elements:
the store of `store_bytes` when it stays inside the array, and undefined behaviour,
`none`, when it reaches an offset from `size` on. -/
def store_bytes_in (size : Nat) (mem : Nat → Nat) (dst : Nat) (src : Nat → Nat)
    (so n : Nat) : Option (Nat → Nat) :=
  if dst + n ≤ size then some (store_bytes mem dst src so n) else none

/-- The part of `proto_40h_led_frame` after the copy (40h.c:145-150): the frame
callback on the working buffer `buf`, the 8 row writes, and the sum of their
results. -/
def proto_40h_led_frame_rows (K : decls) (m : monome_t) (x_off y_off : Nat)
    (buf : Nat → Nat) : Int × monome_t :=
  let ret : Int := 0
  let buf := m.rotspec.frame_cb m.rows m.cols x_off y_off buf
  let r := for_loop
    (fun i (s : Int × monome_t) =>
      let c := proto_40h_led_col_row K s.2 K.PROTO_40h_LED_ROW i (fun j => buf (i + j))
      (s.1 + c.1, c.2)) 8 0 (ret, m)
  r.2

/-- The copy at the top of `proto_40h_led_frame` (40h.c:138-143) into a working buffer
of `size` elements: the stores of `led_frame_copy`, each defined only inside the
array. -/
def led_frame_copy_in (size : Nat) (K : decls) (stack frame_data : Nat → Nat) :
    Option (Nat → Nat) :=
  if K.LP64 then store_bytes_in size stack 1 frame_data 0 8
  else (store_bytes_in size stack 1 frame_data 0 4).bind
    (fun buf => store_bytes_in size buf 5 frame_data 4 4)

/-- The function `proto_40h_led_frame` (40h.c:130) with the bound of `uint8_t buf[8]`
enforced: the copy is made of stores into an array of 8 elements, a store that
leaves the array is undefined behaviour, and then the function has no defined
result (`none`): what follows `buf` in the frame of the function (the sum `ret`, the
counter `i`, a stack canary) is overwritten. -/
def proto_40h_led_frame_checked (K : decls) (m : monome_t) (x_off y_off : Nat)
    (frame_data : Nat → Nat) (stack : Nat → Nat) : Option (Int × monome_t) :=
  (led_frame_copy_in 8 K stack frame_data).map (proto_40h_led_frame_rows K m x_off y_off)

/-- The payload byte of the command a call has emitted last: byte 1 of the last
buffer in the log of its session. -/
def payload (r : Int × monome_t) : Nat :=
  (r.2.written.getLastD []).getD 1 0

/-- A fresh 8x8 session with the identity orientation on a transport that accepts
one byte of every buffer (a short write). -/
def short_writer : monome_t :=
  with_write (session 8 8 rotspec_0) (fun _ _ => 1)

/-- A fresh 8x8 session with the identity orientation on a transport that fails
(reports -1) on its calls number 2 and 5 and accepts every other buffer whole. -/
def flaky_writer : monome_t :=
  with_write (session 8 8 rotspec_0) (fun k buf => if k = 2 ∨ k = 5 then -1 else (buf.length : Int))

/-! ## The transport primitives -/

/-- The session after `monome_write`: the buffer is appended to the log, whatever
the transport reports. -/
theorem monome_write_snd (m : monome_t) (buf : List Nat) (n : Nat) :
    (monome_write m buf n).2 = { m with written := m.written ++ [buf.take n] } := by
  simp only [monome_write, monome_platform_write]
  split <;> rfl

/-- The value of `monome_write`: 0 when the transport reports `bufsize`, else -1. -/
theorem monome_write_fst (m : monome_t) (buf : List Nat) (n : Nat) :
    (monome_write m buf n).1
      = if m.wres m.written.length (buf.take n) = (n : Int) then 0 else -1 := by
  simp only [monome_write, monome_platform_write]
  split <;> rfl

/-- A read result of 0 or 1 is below `sizeof(buf)` after the conversion to `size_t`. -/
theorem to_size_t_small (K : decls) (n : Int) (h0 : 0 ≤ n) (h2 : n < 2) :
    to_size_t K n < 2 := by
  unfold to_size_t
  cases K.LP64 <;> simp <;> omega

/-- A read result of 2 stays 2. -/
theorem to_size_t_two (K : decls) : to_size_t K 2 = 2 := by
  unfold to_size_t
  cases K.LP64 <;> simp

/-- A negative `int` converts to a `size_t` that is not below `sizeof(buf)`. -/
theorem to_size_t_neg (K : decls) (n : Int) (h0 : n < 0) (hlo : -(2 : Int) ^ 31 ≤ n) :
    2 ≤ to_size_t K n := by
  unfold to_size_t
  cases K.LP64 <;> simp <;> omega

/-! ## Row writes under the identity orientation -/

/-- The row write under the identity rotation with all flags clear. -/
theorem led_col_row_row_id (K : decls) (m : monome_t) (a : Nat) (data : Nat → Nat)
    (hid : ∀ x y, m.rotspec.output_cb m.rows m.cols x y = (x, y))
    (hfl : m.rotspec.flags = 0) :
    proto_40h_led_col_row K m K.PROTO_40h_LED_ROW a data
      = monome_write m [(K.PROTO_40h_LED_ROW ||| (a &&& 7)) % 256, data 0 % 256] 2 := by
  simp [proto_40h_led_col_row, ROTATE_COORDS, hid, hfl]

/-- What `proto_40h_led_frame` hands to the transport under the identity
orientation: row 0 carries the byte found in `buf[0]` on entry, row `i + 1`
carries `frame_data[i]`, and `frame_data[7]` is not sent. -/
theorem led_frame_written_id (K : decls) (m : monome_t) (x_off y_off : Nat)
    (f stack : Nat → Nat)
    (hid : ∀ x y, m.rotspec.output_cb m.rows m.cols x y = (x, y))
    (hfl : m.rotspec.flags = 0)
    (hcb : ∀ buf, m.rotspec.frame_cb m.rows m.cols x_off y_off buf = buf) :
    (proto_40h_led_frame K m x_off y_off f stack).2.written
      = m.written ++ [(K.PROTO_40h_LED_ROW ||| 0) % 256, stack 0 % 256] ::
          (List.range 7).map (fun i => [(K.PROTO_40h_LED_ROW ||| (i + 1)) % 256, f i % 256]) := by
  have e2 : 2 &&& 7 = 2 := by decide
  have e3 : 3 &&& 7 = 3 := by decide
  have e4 : 4 &&& 7 = 4 := by decide
  have e5 : 5 &&& 7 = 5 := by decide
  have e6 : 6 &&& 7 = 6 := by decide
  simp only [proto_40h_led_frame, for_loop, hcb]
  cases K.LP64 <;>
  simp [led_col_row_row_id, monome_write_snd, hid, hfl, store_bytes, List.range_succ,
    e2, e3, e4, e5, e6]

/-- Claim C1 fails on the code: for the frame 1, 2, ..., 8 at offsets (0, 0), under the
identity orientation with all flags clear and a frame callback that leaves the
buffer unchanged, `proto_40h_led_frame` emits 8 row writes whose payloads are
the byte found in the uninitialised `buf[0]` and then 1, ..., 7: the copy goes to
`&buf[1]`, so every frame byte is sent one row late and the last one is not sent.
Whatever the stack held, this is not the list `[ROW | i, f[i]]` of the claim. -/
theorem led_frame_payload_one_row_late (stack : Nat → Nat) :
    (proto_40h_led_frame K40h (session 8 8 rotspec_0) 0 0
        (ptr [1, 2, 3, 4, 5, 6, 7, 8]) stack).2.written
      = [[0x70, stack 0 % 256], [0x71, 1], [0x72, 2], [0x73, 3], [0x74, 4], [0x75, 5],
          [0x76, 6], [0x77, 7]]
    ∧ (proto_40h_led_frame K40h (session 8 8 rotspec_0) 0 0
        (ptr [1, 2, 3, 4, 5, 6, 7, 8]) stack).2.written
      ≠ [[0x70, 1], [0x71, 2], [0x72, 3], [0x73, 4], [0x74, 5], [0x75, 6], [0x76, 7],
          [0x77, 8]] := by
  have h := led_frame_written_id K40h (session 8 8 rotspec_0) 0 0
    (ptr [1, 2, 3, 4, 5, 6, 7, 8]) stack (fun _ _ => rfl) rfl (fun _ => rfl)
  have h' : (proto_40h_led_frame K40h (session 8 8 rotspec_0) 0 0
        (ptr [1, 2, 3, 4, 5, 6, 7, 8]) stack).2.written
      = [[0x70, stack 0 % 256], [0x71, 1], [0x72, 2], [0x73, 3], [0x74, 4], [0x75, 5],
          [0x76, 6], [0x77, 7]] := by
    rw [h]; rfl
  refine ⟨h', ?_⟩
  rw [h']
  intro hc
  have h1 := congrArg (fun l => l.getD 1 []) hc
  simp at h1

/-! ## The decoder -/

/-- The decoder when the read reports a value below 2 after conversion. -/
theorem next_event_below (K : decls) (m : monome_t) (e : monome_event_t)
    (h : to_size_t K (m.rres m.nread).ret < 2) :
    proto_40h_next_event K m e = (0, e, { m with nread := m.nread + 1 }) := by
  simp [proto_40h_next_event, monome_platform_read, h]

/-- The decoder's switch, once the read has passed the length check: `a` and `b`
are the two bytes of the buffer. -/
theorem next_event_switch (K : decls) (m : monome_t) (e : monome_event_t) (a b : Nat)
    (h : 2 ≤ to_size_t K (m.rres m.nread).ret)
    (ha : (m.rres m.nread).stored.getD 0 0 % 256 = a)
    (hb : (m.rres m.nread).stored.getD 1 0 % 256 = b) :
    proto_40h_next_event K m e =
      if a = K.PROTO_40h_BUTTON_DOWN ∨ a = K.PROTO_40h_BUTTON_UP then
        (1, { event_type :=
                if a = K.PROTO_40h_BUTTON_DOWN then monome_event_type_t.MONOME_BUTTON_DOWN
                else monome_event_type_t.MONOME_BUTTON_UP,
              x := (m.rotspec.input_cb m.rows m.cols (b >>> 4) (b &&& 0xF)).1,
              y := (m.rotspec.input_cb m.rows m.cols (b >>> 4) (b &&& 0xF)).2 },
          { m with nread := m.nread + 1 })
      else (0, e, { m with nread := m.nread + 1 }) := by
  have h' : ¬ to_size_t K (m.rres m.nread).ret < 2 := by omega
  subst ha hb
  simp only [proto_40h_next_event, monome_platform_read, UNROTATE_COORDS, h', if_false]
  simp [List.range_succ]

/-- Claim C2 fails on the code for a negative read result: when
`monome_platform_read` reports an error (a negative `int`) and has stored nothing,
the comparison with `sizeof(buf)` is made in `size_t`, the check `< 2` does not
fire, and the switch sees `buf[0] = 0`; with 0 being one of the two button tags,
`proto_40h_next_event` returns 1 and overwrites the caller's event with a button
event at the unrotated (0, 0) instead of returning 0 and leaving it alone. -/
theorem next_event_negative_read_is_decoded (K : decls) (m : monome_t) (e : monome_event_t)
    (hneg : (m.rres m.nread).ret < 0) (hlo : -(2 : Int) ^ 31 ≤ (m.rres m.nread).ret)
    (hst : (m.rres m.nread).stored = [])
    (h0 : K.PROTO_40h_BUTTON_DOWN = 0 ∨ K.PROTO_40h_BUTTON_UP = 0) :
    (proto_40h_next_event K m e).1 = 1 ∧
    (proto_40h_next_event K m e).2.1 =
      { event_type :=
          if K.PROTO_40h_BUTTON_DOWN = 0 then monome_event_type_t.MONOME_BUTTON_DOWN
          else monome_event_type_t.MONOME_BUTTON_UP,
        x := (UNROTATE_COORDS m 0 0).1, y := (UNROTATE_COORDS m 0 0).2 } := by
  have hsw := next_event_switch K m e 0 0 (to_size_t_neg K _ hneg hlo)
    (by simp [hst]) (by simp [hst])
  have hc : (0 = K.PROTO_40h_BUTTON_DOWN ∨ 0 = K.PROTO_40h_BUTTON_UP) := by
    rcases h0 with h | h
    · exact Or.inl h.symm
    · exact Or.inr h.symm
  rw [hsw, if_pos hc]
  refine ⟨rfl, ?_⟩
  by_cases hd : K.PROTO_40h_BUTTON_DOWN = 0
  · simp [hd, UNROTATE_COORDS]
  · have hd' : ¬ (0 = K.PROTO_40h_BUTTON_DOWN) := fun h => hd h.symm
    simp [hd, hd', UNROTATE_COORDS]

/-- The failing input of C2: the read reports -1 and stores nothing; the caller's
event {ButtonDown, 5, 6} comes back as {ButtonUp, 0, 0} with result 1. -/
theorem next_event_negative_read_is_decoded_witness :
    (proto_40h_next_event K40h
        (with_read (session 8 8 rotspec_0) { ret := -1, stored := [] })
        { event_type := monome_event_type_t.MONOME_BUTTON_DOWN, x := 5, y := 6 }).1 = 1 ∧
    (proto_40h_next_event K40h
        (with_read (session 8 8 rotspec_0) { ret := -1, stored := [] })
        { event_type := monome_event_type_t.MONOME_BUTTON_DOWN, x := 5, y := 6 }).2.1 =
      { event_type := monome_event_type_t.MONOME_BUTTON_UP, x := 0, y := 0 } :=
  next_event_negative_read_is_decoded K40h
    (with_read (session 8 8 rotspec_0) { ret := -1, stored := [] })
    { event_type := monome_event_type_t.MONOME_BUTTON_DOWN, x := 5, y := 6 }
    (by decide) (by decide) rfl (Or.inr rfl)

/-- Claim C3: for every payload byte `b`, when the read delivers the 2 bytes
[button-down tag, b] under the identity orientation, `proto_40h_next_event` returns 1
with the event {ButtonDown, x = b >> 4, y = b & 0xF}; with [button-up tag, b] it
returns 1 with {ButtonUp, x = b >> 4, y = b & 0xF}. The tags are distinct bytes. -/
theorem next_event_button (K : decls) (m : monome_t) (e : monome_event_t) (b : Nat)
    (hb : b < 256)
    (hD : K.PROTO_40h_BUTTON_DOWN < 256) (hU : K.PROTO_40h_BUTTON_UP < 256)
    (hne : K.PROTO_40h_BUTTON_DOWN ≠ K.PROTO_40h_BUTTON_UP)
    (hid : ∀ x y, m.rotspec.input_cb m.rows m.cols x y = (x, y)) :
    (m.rres m.nread = { ret := 2, stored := [K.PROTO_40h_BUTTON_DOWN, b] } →
      (proto_40h_next_event K m e).1 = 1 ∧
      (proto_40h_next_event K m e).2.1 =
        { event_type := monome_event_type_t.MONOME_BUTTON_DOWN,
          x := b >>> 4, y := b &&& 0xF }) ∧
    (m.rres m.nread = { ret := 2, stored := [K.PROTO_40h_BUTTON_UP, b] } →
      (proto_40h_next_event K m e).1 = 1 ∧
      (proto_40h_next_event K m e).2.1 =
        { event_type := monome_event_type_t.MONOME_BUTTON_UP,
          x := b >>> 4, y := b &&& 0xF }) := by
  constructor
  · intro hr
    have hsw := next_event_switch K m e K.PROTO_40h_BUTTON_DOWN b
      (by rw [hr]; simp [to_size_t_two])
      (by rw [hr]; simpa using Nat.mod_eq_of_lt hD)
      (by rw [hr]; simpa using Nat.mod_eq_of_lt hb)
    rw [hsw]
    simp [hid]
  · intro hr
    have hsw := next_event_switch K m e K.PROTO_40h_BUTTON_UP b
      (by rw [hr]; simp [to_size_t_two])
      (by rw [hr]; simpa using Nat.mod_eq_of_lt hU)
      (by rw [hr]; simpa using Nat.mod_eq_of_lt hb)
    rw [hsw]
    simp [hid, hne.symm]

/-- The example of C3: the bytes [button-down tag, 0x34] under the identity
orientation decode to {ButtonDown, x = 3, y = 4}. -/
theorem next_event_button_witness :
    (proto_40h_next_event K40h
        (with_read (session 8 8 rotspec_0) { ret := 2, stored := [0x01, 0x34] })
        { event_type := monome_event_type_t.MONOME_BUTTON_UP, x := 0, y := 0 }).1 = 1 ∧
    (proto_40h_next_event K40h
        (with_read (session 8 8 rotspec_0) { ret := 2, stored := [0x01, 0x34] })
        { event_type := monome_event_type_t.MONOME_BUTTON_UP, x := 0, y := 0 }).2.1 =
      { event_type := monome_event_type_t.MONOME_BUTTON_DOWN, x := 3, y := 4 } :=
  (next_event_button K40h
    (with_read (session 8 8 rotspec_0) { ret := 2, stored := [0x01, 0x34] })
    { event_type := monome_event_type_t.MONOME_BUTTON_UP, x := 0, y := 0 } 0x34
    (by decide) (by decide) (by decide) (by decide) (fun _ _ => rfl)).1 rfl

/-- The decoder on a complete read of the bytes `a`, `b`. -/
theorem next_event_two_bytes (K : decls) (m : monome_t) (e : monome_event_t) (a b : Nat)
    (ha : a < 256) (hr : m.rres m.nread = { ret := 2, stored := [a, b] }) :
    proto_40h_next_event K m e =
      if a = K.PROTO_40h_BUTTON_DOWN ∨ a = K.PROTO_40h_BUTTON_UP then
        (1, { event_type :=
                if a = K.PROTO_40h_BUTTON_DOWN then monome_event_type_t.MONOME_BUTTON_DOWN
                else monome_event_type_t.MONOME_BUTTON_UP,
              x := (m.rotspec.input_cb m.rows m.cols ((b % 256) >>> 4) ((b % 256) &&& 0xF)).1,
              y := (m.rotspec.input_cb m.rows m.cols ((b % 256) >>> 4) ((b % 256) &&& 0xF)).2 },
          { m with nread := m.nread + 1 })
      else (0, e, { m with nread := m.nread + 1 }) :=
  next_event_switch K m e a (b % 256)
    (by rw [hr]; simp [to_size_t_two])
    (by rw [hr]; simpa using Nat.mod_eq_of_lt ha)
    (by rw [hr]; simp)

/-- Claim C4 fails as stated: the high nibble of the first byte does not select
the event family. Whatever byte the button-down tag is, that tag and the byte
that differs from it in the lowest bit only have the same high nibble, and
`proto_40h_next_event` decodes the first to a ButtonDown event and the second to
something else (a ButtonUp event, or no event): the switch compares the whole
byte `buf[0]`. So no assignment of the tags makes the claim true. -/
theorem next_event_high_nibble_not_enough :
    ¬ ∃ K : decls, K.PROTO_40h_BUTTON_DOWN < 256 ∧
      ∀ (m : monome_t) (e : monome_event_t) (a a' b : Nat),
        a < 256 → a' < 256 → b < 256 → a >>> 4 = a' >>> 4 →
        (proto_40h_next_event K (with_read m { ret := 2, stored := [a, b] }) e).1
          = (proto_40h_next_event K (with_read m { ret := 2, stored := [a', b] }) e).1 ∧
        (proto_40h_next_event K (with_read m { ret := 2, stored := [a, b] }) e).2.1
          = (proto_40h_next_event K (with_read m { ret := 2, stored := [a', b] }) e).2.1 := by
  rintro ⟨K, hD, h⟩
  -- the tag with its lowest bit flipped
  obtain ⟨a', ha', hnib, hne⟩ : ∃ a', a' < 256 ∧
      K.PROTO_40h_BUTTON_DOWN >>> 4 = a' >>> 4 ∧ a' ≠ K.PROTO_40h_BUTTON_DOWN := by
    by_cases hp : K.PROTO_40h_BUTTON_DOWN % 2 = 0
    · refine ⟨K.PROTO_40h_BUTTON_DOWN + 1, by omega, ?_, by omega⟩
      simp only [Nat.shiftRight_eq_div_pow]; omega
    · refine ⟨K.PROTO_40h_BUTTON_DOWN - 1, by omega, ?_, by omega⟩
      simp only [Nat.shiftRight_eq_div_pow]; omega
  have key := h (session 8 8 rotspec_0)
    { event_type := monome_event_type_t.MONOME_BUTTON_UP, x := 0, y := 0 }
    K.PROTO_40h_BUTTON_DOWN a' 0 hD ha' (by decide) hnib
  rw [next_event_two_bytes K _ _ K.PROTO_40h_BUTTON_DOWN 0 hD rfl,
    next_event_two_bytes K _ _ a' 0 ha' rfl] at key
  by_cases hu : a' = K.PROTO_40h_BUTTON_UP
  · simp [hne, hu] at key
    rw [← hu] at key
    simp [hne] at key
  · simp [hne, hu] at key

/-- Claim C4 as amended: in `proto_40h_next_event` the event family is selected by the
whole first byte. On a complete read [a, b]: a first byte equal to the
button-down tag gives result 1 and a ButtonDown event; a first byte equal to the
button-up tag (and not to the button-down tag) gives result 1 and a ButtonUp
event; every other first byte, also one whose high nibble is that of a tag,
gives result 0 and leaves the caller's event as it was. -/
theorem next_event_selects_by_whole_byte (K : decls) (m : monome_t) (e : monome_event_t)
    (a b : Nat) (ha : a < 256)
    (hr : m.rres m.nread = { ret := 2, stored := [a, b] }) :
    (a = K.PROTO_40h_BUTTON_DOWN →
      (proto_40h_next_event K m e).1 = 1 ∧
      (proto_40h_next_event K m e).2.1.event_type = monome_event_type_t.MONOME_BUTTON_DOWN) ∧
    (a = K.PROTO_40h_BUTTON_UP → a ≠ K.PROTO_40h_BUTTON_DOWN →
      (proto_40h_next_event K m e).1 = 1 ∧
      (proto_40h_next_event K m e).2.1.event_type = monome_event_type_t.MONOME_BUTTON_UP) ∧
    (a ≠ K.PROTO_40h_BUTTON_DOWN → a ≠ K.PROTO_40h_BUTTON_UP →
      (proto_40h_next_event K m e).1 = 0 ∧ (proto_40h_next_event K m e).2.1 = e) := by
  rw [next_event_two_bytes K m e a b ha hr]
  refine ⟨fun h => ?_, fun h h' => ?_, fun h h' => ?_⟩
  · simp [h]
  · subst h
    simp [h']
  · simp [h, h']

/-- An instance of the amended C4: the first byte 0x03 has the high nibble of the
tags 0x00 and 0x01 and is neither, so the read [0x03, 0x34] gives no event. -/
theorem next_event_selects_by_whole_byte_witness :
    (proto_40h_next_event K40h
        (with_read (session 8 8 rotspec_0) { ret := 2, stored := [0x03, 0x34] })
        { event_type := monome_event_type_t.MONOME_BUTTON_UP, x := 7, y := 7 }).1 = 0 ∧
    (proto_40h_next_event K40h
        (with_read (session 8 8 rotspec_0) { ret := 2, stored := [0x03, 0x34] })
        { event_type := monome_event_type_t.MONOME_BUTTON_UP, x := 7, y := 7 }).2.1
      = { event_type := monome_event_type_t.MONOME_BUTTON_UP, x := 7, y := 7 } :=
  (next_event_selects_by_whole_byte K40h
    (with_read (session 8 8 rotspec_0) { ret := 2, stored := [0x03, 0x34] })
    { event_type := monome_event_type_t.MONOME_BUTTON_UP, x := 7, y := 7 } 0x03 0x34
    (by decide) rfl).2.2 (by decide) (by decide)

/-- Claim C5: for every complete 2-byte read [a, b] whose first byte `a` is neither
the button-down tag nor the button-up tag (the auxiliary-input tag and every
unknown or reserved value included), `proto_40h_next_event` returns 0 and leaves the
caller's event unmodified. -/
theorem next_event_unknown_first_byte (K : decls) (m : monome_t) (e : monome_event_t)
    (a b : Nat) (ha : a < 256)
    (hr : m.rres m.nread = { ret := 2, stored := [a, b] })
    (hD : a ≠ K.PROTO_40h_BUTTON_DOWN) (hU : a ≠ K.PROTO_40h_BUTTON_UP) :
    (proto_40h_next_event K m e).1 = 0 ∧ (proto_40h_next_event K m e).2.1 = e := by
  rw [next_event_two_bytes K m e a b ha hr]
  simp [hD, hU]

/-- An instance of C5: the auxiliary-input tag 0xE0 as first byte gives no event. -/
theorem next_event_unknown_first_byte_witness :
    (proto_40h_next_event K40h
        (with_read (session 8 8 rotspec_0) { ret := 2, stored := [0xE0, 0x12] })
        { event_type := monome_event_type_t.MONOME_BUTTON_DOWN, x := 1, y := 2 }).1 = 0 ∧
    (proto_40h_next_event K40h
        (with_read (session 8 8 rotspec_0) { ret := 2, stored := [0xE0, 0x12] })
        { event_type := monome_event_type_t.MONOME_BUTTON_DOWN, x := 1, y := 2 }).2.1
      = { event_type := monome_event_type_t.MONOME_BUTTON_DOWN, x := 1, y := 2 } :=
  next_event_unknown_first_byte K40h
    (with_read (session 8 8 rotspec_0) { ret := 2, stored := [0xE0, 0x12] })
    { event_type := monome_event_type_t.MONOME_BUTTON_DOWN, x := 1, y := 2 } 0xE0 0x12
    (by decide) rfl (by decide) (by decide)

/-! ## Bytes and nibbles -/

/-- An address masked to 3 bits is in 0..7. -/
theorem and_seven_lt (x : Nat) : x &&& 7 < 8 :=
  Nat.and_lt_two_pow x (by decide : 7 < 2 ^ 3)

/-- Masking to 3 bits leaves a value in 0..7 alone. -/
theorem and_seven_of_le (x : Nat) (h : x ≤ 7) : x &&& 7 = x := by
  interval_cases x <;> rfl

/-- An opcode byte or-ed with an address field in 0..7 is a byte. -/
theorem lor_lt_256 (a i : Nat) (ha : a < 256) (hi : i < 8) : a ||| i < 256 :=
  @Nat.or_lt_two_pow a i 8 ha (by omega)

/-- Two nibbles in 0..7 packed as `(u << 4) | v` form a byte whose high nibble is
`u` and whose low nibble is `v`. -/
theorem nibble_pack (u v : Nat) (hu : u < 8) (hv : v < 8) :
    (u <<< 4 ||| v) % 256 = u <<< 4 ||| v ∧ (u <<< 4 ||| v) >>> 4 = u ∧
      (u <<< 4 ||| v) &&& 0xF = v := by
  interval_cases u <;> interval_cases v <;> decide

/-! ## Clear -/

/-- Claim C6 fails as stated: on a session of 4 rows, `proto_40h_clear` still emits 8
row writes (rows 0..7) and returns 16, not 4 commands and 8: the loop bound is
the constant 8, and the session's `rows` is never read. -/
theorem clear_ignores_rows :
    (proto_40h_clear K40h (session 4 4 rotspec_0) 0).2.written
      = [[0x70, 0], [0x71, 0], [0x72, 0], [0x73, 0], [0x74, 0], [0x75, 0], [0x76, 0],
          [0x77, 0]] ∧
    (proto_40h_clear K40h (session 4 4 rotspec_0) 0).1 = 16 ∧
    ¬ ((proto_40h_clear K40h (session 4 4 rotspec_0) 0).2.written.length
          = (session 4 4 rotspec_0).rows ∧
        (proto_40h_clear K40h (session 4 4 rotspec_0) 0).1
          = 2 * ((session 4 4 rotspec_0).rows : Int)) := by
  decide

/-- Claim C6 as amended: for every session, whatever its `rows`, and every status
argument, `proto_40h_clear` emits exactly 8 row-write commands, one per row index
0..7 in increasing order, each being the 2 bytes [ROW_OPCODE | i, 0x00], and
returns 16; that is `rows` commands and `2 * rows` when `rows` is 8. -/
theorem clear_emits_eight_rows (K : decls) (m : monome_t) (status : Nat)
    (hR : K.PROTO_40h_LED_ROW < 256) :
    (proto_40h_clear K m status).2.written
      = m.written ++ (List.range 8).map (fun i => [K.PROTO_40h_LED_ROW ||| i, 0]) ∧
    (proto_40h_clear K m status).1 = 16 ∧
    (m.rows = 8 →
      (proto_40h_clear K m status).2.written.length = m.written.length + m.rows ∧
      (proto_40h_clear K m status).1 = 2 * (m.rows : Int)) := by
  have hb : ∀ i, i < 8 → (K.PROTO_40h_LED_ROW ||| i) % 256 = K.PROTO_40h_LED_ROW ||| i :=
    fun i hi => Nat.mod_eq_of_lt (lor_lt_256 _ _ hR hi)
  have hw : (proto_40h_clear K m status).2.written
      = m.written ++ (List.range 8).map (fun i => [K.PROTO_40h_LED_ROW ||| i, 0]) := by
    simp [proto_40h_clear, for_loop, monome_write_snd, List.range_succ, hb, hR]
  have hret : (proto_40h_clear K m status).1 = 16 := by
    simp [proto_40h_clear, for_loop]
  refine ⟨hw, hret, fun h8 => ⟨?_, ?_⟩⟩
  · rw [hw, h8]; simp
  · rw [hret, h8]; rfl

/-- An instance of the amended C6 on a fresh 8x8 session. -/
theorem clear_emits_eight_rows_witness :
    (proto_40h_clear K40h (session 8 8 rotspec_0) 0).2.written
      = (session 8 8 rotspec_0).written ++ (List.range 8).map (fun i => [0x70 ||| i, 0]) ∧
    (proto_40h_clear K40h (session 8 8 rotspec_0) 0).1 = 16 ∧
    ((session 8 8 rotspec_0).rows = 8 →
      (proto_40h_clear K40h (session 8 8 rotspec_0) 0).2.written.length
        = (session 8 8 rotspec_0).written.length + (session 8 8 rotspec_0).rows ∧
      (proto_40h_clear K40h (session 8 8 rotspec_0) 0).1
        = 2 * ((session 8 8 rotspec_0).rows : Int)) :=
  clear_emits_eight_rows K40h (session 8 8 rotspec_0) 0 (by decide)

/-! ## Single LED -/

/-- Claim C7: for every x, y and on, `proto_40h_led` emits exactly one 2-byte command
[op, ((x' & 7) << 4) | (y' & 7)], where (x', y') is the rotated pair, op is the
LED-on opcode when on is non-zero (any non-zero value) and the LED-off opcode when
on is 0; the payload's high nibble is x' & 7 and its low nibble y' & 7, each in
0..7. The LED-on opcode is the LED-off opcode plus one, as `LED_OFF + !!on` needs. -/
theorem led_emits_one_command (K : decls) (m : monome_t) (x y on_ : Nat)
    (hON : K.PROTO_40h_LED_ON = K.PROTO_40h_LED_OFF + 1)
    (hlt : K.PROTO_40h_LED_ON < 256) :
    (proto_40h_led K m x y on_).2.written
      = m.written ++
        [[if on_ = 0 then K.PROTO_40h_LED_OFF else K.PROTO_40h_LED_ON,
          (((ROTATE_COORDS m x y).1 &&& 7) <<< 4) ||| ((ROTATE_COORDS m x y).2 &&& 7)]] ∧
    ((((ROTATE_COORDS m x y).1 &&& 7) <<< 4) ||| ((ROTATE_COORDS m x y).2 &&& 7)) >>> 4
      = (ROTATE_COORDS m x y).1 &&& 7 ∧
    ((((ROTATE_COORDS m x y).1 &&& 7) <<< 4) ||| ((ROTATE_COORDS m x y).2 &&& 7)) &&& 0xF
      = (ROTATE_COORDS m x y).2 &&& 7 ∧
    (ROTATE_COORDS m x y).1 &&& 7 ≤ 7 ∧ (ROTATE_COORDS m x y).2 &&& 7 ≤ 7 := by
  have hx := and_seven_lt (ROTATE_COORDS m x y).1
  have hy := and_seven_lt (ROTATE_COORDS m x y).2
  obtain ⟨hp, hhi, hlo⟩ := nibble_pack _ _ hx hy
  refine ⟨?_, hhi, hlo, by omega, by omega⟩
  by_cases h : on_ = 0
  · have h1 : K.PROTO_40h_LED_OFF % 256 = K.PROTO_40h_LED_OFF := Nat.mod_eq_of_lt (by omega)
    simp [proto_40h_led, monome_write_snd, lnot, h, hp, h1]
  · have h1 : (K.PROTO_40h_LED_OFF + 1) % 256 = K.PROTO_40h_LED_ON := by
      rw [← hON]; exact Nat.mod_eq_of_lt hlt
    simp [proto_40h_led, monome_write_snd, lnot, h, hp, h1]

/-- An instance of C7: on the identity orientation, `on = 5` at (3, 4) emits the
LED-on opcode 0x21 with payload 0x34. -/
theorem led_emits_one_command_witness :
    (proto_40h_led K40h (session 8 8 rotspec_0) 3 4 5).2.written = [[0x21, 0x34]] :=
  (led_emits_one_command K40h (session 8 8 rotspec_0) 3 4 5 rfl (by decide)).1

/-- The rotation by 90 degrees keeps the 8x8 grid and is undone by its inverse. -/
theorem r90_on_grid (u v : Nat) (hu : u ≤ 7) (hv : v ≤ 7) :
    ((r90_output_cb 8 8 u v).1 ≤ 7 ∧ (r90_output_cb 8 8 u v).2 ≤ 7) ∧
    r90_input_cb 8 8 (r90_output_cb 8 8 u v).1 (r90_output_cb 8 8 u v).2 = (u, v) := by
  interval_cases u <;> interval_cases v <;> decide

/-- Claim C8, the loopback round trip: for every orientation of an 8x8 session (its
rotate keeps the grid 0..7 x 0..7 and its unrotate undoes it there) and every
logical (x, y) with 0 <= x, y <= 7, `proto_40h_led` with on = true emits one command
[op, p], and feeding the payload `p` through the button decode of
`proto_40h_next_event` (p >> 4 and p & 0xF, then unrotate) gives back exactly the
logical coordinates (x, y). -/
theorem led_loopback_roundtrip (K : decls) (m : monome_t) (e : monome_event_t) (x y : Nat)
    (hx : x ≤ 7) (hy : y ≤ 7) (hD : K.PROTO_40h_BUTTON_DOWN < 256)
    (hgrid : ∀ u v, u ≤ 7 → v ≤ 7 →
      (ROTATE_COORDS m u v).1 ≤ 7 ∧ (ROTATE_COORDS m u v).2 ≤ 7)
    (hinv : ∀ u v, u ≤ 7 → v ≤ 7 →
      UNROTATE_COORDS m (ROTATE_COORDS m u v).1 (ROTATE_COORDS m u v).2 = (u, v)) :
    ∃ op p, (proto_40h_led K m x y 1).2.written = m.written ++ [[op, p]] ∧
      (proto_40h_next_event K
          (with_read (proto_40h_led K m x y 1).2
            { ret := 2, stored := [K.PROTO_40h_BUTTON_DOWN, p] }) e).1 = 1 ∧
      (proto_40h_next_event K
          (with_read (proto_40h_led K m x y 1).2
            { ret := 2, stored := [K.PROTO_40h_BUTTON_DOWN, p] }) e).2.1
        = { event_type := monome_event_type_t.MONOME_BUTTON_DOWN, x := x, y := y } := by
  obtain ⟨gx, gy⟩ := hgrid x y hx hy
  have hi := hinv x y hx hy
  have mx := and_seven_of_le _ gx
  have my := and_seven_of_le _ gy
  obtain ⟨hp, hhi, hlo⟩ := nibble_pack (ROTATE_COORDS m x y).1 (ROTATE_COORDS m x y).2
    (by omega) (by omega)
  have hw : (proto_40h_led K m x y 1).2
      = { m with written := m.written ++
            [[(K.PROTO_40h_LED_OFF + 1) % 256,
              (ROTATE_COORDS m x y).1 <<< 4 ||| (ROTATE_COORDS m x y).2]] } := by
    simp [proto_40h_led, monome_write_snd, lnot, mx, my, hp]
  refine ⟨(K.PROTO_40h_LED_OFF + 1) % 256,
    (ROTATE_COORDS m x y).1 <<< 4 ||| (ROTATE_COORDS m x y).2, ?_, ?_⟩
  · rw [hw]
  · rw [next_event_two_bytes K _ e K.PROTO_40h_BUTTON_DOWN
      ((ROTATE_COORDS m x y).1 <<< 4 ||| (ROTATE_COORDS m x y).2) hD rfl]
    have hi' : m.rotspec.input_cb m.rows m.cols (ROTATE_COORDS m x y).1
        (ROTATE_COORDS m x y).2 = (x, y) := hi
    simp [hw, with_read, hp, hhi, hlo, hi']

/-- An instance of C8 on an 8x8 session rotated by 90 degrees: logical (1, 6) is
sent as the payload 0x66 and decoded back to (1, 6). -/
theorem led_loopback_roundtrip_witness :
    ∃ op p, (proto_40h_led K40h (session 8 8 (rotspec_90 r0_frame_cb 3)) 1 6 1).2.written
        = (session 8 8 (rotspec_90 r0_frame_cb 3)).written ++ [[op, p]] ∧
      (proto_40h_next_event K40h
          (with_read (proto_40h_led K40h (session 8 8 (rotspec_90 r0_frame_cb 3)) 1 6 1).2
            { ret := 2, stored := [K40h.PROTO_40h_BUTTON_DOWN, p] })
          { event_type := monome_event_type_t.MONOME_BUTTON_UP, x := 0, y := 0 }).1 = 1 ∧
      (proto_40h_next_event K40h
          (with_read (proto_40h_led K40h (session 8 8 (rotspec_90 r0_frame_cb 3)) 1 6 1).2
            { ret := 2, stored := [K40h.PROTO_40h_BUTTON_DOWN, p] })
          { event_type := monome_event_type_t.MONOME_BUTTON_UP, x := 0, y := 0 }).2.1
        = { event_type := monome_event_type_t.MONOME_BUTTON_DOWN, x := 1, y := 6 } :=
  led_loopback_roundtrip K40h (session 8 8 (rotspec_90 r0_frame_cb 3))
    { event_type := monome_event_type_t.MONOME_BUTTON_UP, x := 0, y := 0 } 1 6
    (by decide) (by decide) (by decide)
    (fun u v hu hv => (r90_on_grid u v hu hv).1)
    (fun u v hu hv => (r90_on_grid u v hu hv).2)

/-- The low 3 bits of `c - 15` and `c - 7` in `uint_t` arithmetic agree. -/
theorem usub_and_seven (c : Nat) : usub c 15 &&& 7 = usub c 7 &&& 7 := by
  have e : ∀ x : Nat, x &&& 7 = x % 8 := fun x => Nat.and_pow_two_sub_one_eq_mod x 3
  rw [e, e]
  unfold usub
  norm_num
  omega

/-- Claim C9, coordinate masking: under the identity orientation, for all x, y, on,
`proto_40h_led` at (x, y) emits the same bytes, returns the same result and leaves
the same session as at (x & 7, y & 7); and for every on, `proto_40h_led` at (15, 15)
does exactly what it does at (7, 7), under the identity orientation and also under
the rotations by 90, 180 and 270 degrees of a session of any extent. -/
theorem led_coordinate_masking (K : decls) (m : monome_t) (x y on_ : Nat) :
    ((∀ u v, m.rotspec.output_cb m.rows m.cols u v = (u, v)) →
      proto_40h_led K m x y on_ = proto_40h_led K m (x &&& 7) (y &&& 7) on_) ∧
    ((∀ u v, m.rotspec.output_cb m.rows m.cols u v = (u, v)) ∨
        m.rotspec.output_cb = r0_cb ∨ m.rotspec.output_cb = r90_output_cb ∨
        m.rotspec.output_cb = r180_cb ∨ m.rotspec.output_cb = r270_output_cb →
      proto_40h_led K m 15 15 on_ = proto_40h_led K m 7 7 on_) := by
  have e15 : 15 &&& 7 = 7 := by decide
  have e7 : 7 &&& 7 = 7 := by decide
  constructor
  · intro hid
    simp [proto_40h_led, ROTATE_COORDS, hid, Nat.and_assoc]
  · rintro (h | h | h | h | h)
    · simp [proto_40h_led, ROTATE_COORDS, h, e15, e7]
    · simp [proto_40h_led, ROTATE_COORDS, h, r0_cb, e15, e7]
    · simp [proto_40h_led, ROTATE_COORDS, h, r90_output_cb, usub_and_seven, e15, e7]
    · simp [proto_40h_led, ROTATE_COORDS, h, r180_cb, usub_and_seven, e15, e7]
    · simp [proto_40h_led, ROTATE_COORDS, h, r270_output_cb, usub_and_seven, e15, e7]

/-- An instance of C9: on the identity orientation, (15, 15) and (7, 7) both emit
the payload 0x77, here with the LED-off opcode. -/
theorem led_coordinate_masking_witness :
    proto_40h_led K40h (session 8 8 rotspec_0) 15 15 0
      = proto_40h_led K40h (session 8 8 rotspec_0) 7 7 0 ∧
    (proto_40h_led K40h (session 8 8 rotspec_0) 15 15 0).2.written = [[0x20, 0x77]] :=
  ⟨(led_coordinate_masking K40h (session 8 8 rotspec_0) 15 15 0).2
      (Or.inl (fun _ _ => rfl)), by decide⟩

/-! ## Row and column writes -/

/-- Or-ing an address field in 0..7 into byte 0 leaves its high nibble, the opcode
nibble, as it was. -/
theorem opcode_nibble_kept (op v : Nat) (hv : v < 8) :
    ((op ||| v) % 256) >>> 4 = (op % 256) >>> 4 := by
  apply Nat.eq_of_testBit_eq
  intro j
  have h256 : (256 : Nat) = 2 ^ 8 := by norm_num
  have hv' : v.testBit (4 + j) = false :=
    Nat.testBit_lt_two_pow (lt_of_lt_of_le hv
      (le_trans (by decide : 8 ≤ 2 ^ 4)
        (Nat.pow_le_pow_right (by decide) (Nat.le_add_right 4 j))))
  rw [h256]
  simp only [Nat.testBit_shiftRight, Nat.testBit_mod_two_pow, Nat.testBit_or, hv',
    Bool.or_false]

/-- The command `proto_40h_led_row` builds: the opcode is the row opcode, or the row
opcode plus 0x10 under ROW_COL_SWAP; the address is the first component of the
rotated pair (a, a). -/
theorem led_row_eq (K : decls) (m : monome_t) (a offset count : Nat) (data : Nat → Nat) :
    proto_40h_led_row K m a offset count data
      = monome_write m
          [((if m.rotspec.flags &&& K.ROW_COL_SWAP ≠ 0 then 16 + K.PROTO_40h_LED_ROW
              else K.PROTO_40h_LED_ROW) ||| ((ROTATE_COORDS m a a).1 &&& 7)) % 256,
           if m.rotspec.flags &&& K.ROW_REVBITS ≠ 0 then REVERSE_BYTE (data 0 % 256) % 256
             else data 0 % 256] 2 := by
  simp only [proto_40h_led_row, proto_40h_led_col_row, if_pos rfl, lnot, sub_self]
  rfl

/-- The command `proto_40h_led_col` builds: the opcode is the column opcode, or the
row opcode under ROW_COL_SWAP; the address is the second component of the rotated
pair (a, a). -/
theorem led_col_eq (K : decls) (m : monome_t) (a offset count : Nat) (data : Nat → Nat)
    (hne : K.PROTO_40h_LED_ROW ≠ K.PROTO_40h_LED_COL) :
    proto_40h_led_col K m a offset count data
      = monome_write m
          [((if m.rotspec.flags &&& K.ROW_COL_SWAP ≠ 0 then K.PROTO_40h_LED_ROW
              else K.PROTO_40h_LED_COL) ||| ((ROTATE_COORDS m a a).2 &&& 7)) % 256,
           if m.rotspec.flags &&& K.COL_REVBITS ≠ 0 then REVERSE_BYTE (data 0 % 256) % 256
             else data 0 % 256] 2 := by
  have h1 : ¬ (K.PROTO_40h_LED_COL = K.PROTO_40h_LED_ROW) := fun h => hne h.symm
  have h2 : ¬ ((K.PROTO_40h_LED_COL : Int) - (K.PROTO_40h_LED_ROW : Int) = 0) := by
    intro h; apply h1; omega
  simp only [proto_40h_led_col, proto_40h_led_col_row, if_neg h1, if_pos rfl, lnot, if_neg h2]
  simp

/-- Claim C10: for every address a, offset, count and data, `proto_40h_led_row` and
`proto_40h_led_col` each emit exactly one 2-byte command whose first byte is
opcode | (a' & 7), with a' the rotated address (the first component of the rotated
pair for a row, the second for a column) and the opcode the operation's own or the
one ROW_COL_SWAP relabels it to; the address field a' & 7 is in 0..7 and the high
nibble of the first byte is that of the opcode. Under the identity orientation with
all flags clear the command is [ROW_OPCODE | (a & 7), data[0]] for a row and
[COL_OPCODE | (a & 7), data[0]] for a column, and offset and count play no part. -/
theorem led_row_col_one_command (K : decls) (m : monome_t) (a offset count : Nat)
    (data : Nat → Nat) (hne : K.PROTO_40h_LED_ROW ≠ K.PROTO_40h_LED_COL) :
    (∃ op p, (op = K.PROTO_40h_LED_ROW ∨ op = 16 + K.PROTO_40h_LED_ROW) ∧
      (proto_40h_led_row K m a offset count data).2.written
        = m.written ++ [[(op ||| ((ROTATE_COORDS m a a).1 &&& 7)) % 256, p]] ∧
      (ROTATE_COORDS m a a).1 &&& 7 ≤ 7 ∧
      ((op ||| ((ROTATE_COORDS m a a).1 &&& 7)) % 256) >>> 4 = (op % 256) >>> 4) ∧
    (∃ op p, (op = K.PROTO_40h_LED_COL ∨ op = K.PROTO_40h_LED_ROW) ∧
      (proto_40h_led_col K m a offset count data).2.written
        = m.written ++ [[(op ||| ((ROTATE_COORDS m a a).2 &&& 7)) % 256, p]] ∧
      (ROTATE_COORDS m a a).2 &&& 7 ≤ 7 ∧
      ((op ||| ((ROTATE_COORDS m a a).2 &&& 7)) % 256) >>> 4 = (op % 256) >>> 4) ∧
    ((∀ x y, m.rotspec.output_cb m.rows m.cols x y = (x, y)) → m.rotspec.flags = 0 →
      K.PROTO_40h_LED_ROW < 256 → K.PROTO_40h_LED_COL < 256 → data 0 < 256 →
      (proto_40h_led_row K m a offset count data).2.written
        = m.written ++ [[K.PROTO_40h_LED_ROW ||| (a &&& 7), data 0]] ∧
      (proto_40h_led_col K m a offset count data).2.written
        = m.written ++ [[K.PROTO_40h_LED_COL ||| (a &&& 7), data 0]]) ∧
    (∀ offset' count',
      proto_40h_led_row K m a offset' count' data = proto_40h_led_row K m a offset count data ∧
      proto_40h_led_col K m a offset' count' data
        = proto_40h_led_col K m a offset count data) := by
  refine ⟨?_, ?_, ?_, fun _ _ => ⟨rfl, rfl⟩⟩
  · refine ⟨if m.rotspec.flags &&& K.ROW_COL_SWAP ≠ 0 then 16 + K.PROTO_40h_LED_ROW
        else K.PROTO_40h_LED_ROW,
      if m.rotspec.flags &&& K.ROW_REVBITS ≠ 0 then REVERSE_BYTE (data 0 % 256) % 256
        else data 0 % 256, ?_, ?_, ?_, opcode_nibble_kept _ _ (and_seven_lt _)⟩
    · split <;> simp
    · rw [led_row_eq, monome_write_snd]; rfl
    · have := and_seven_lt (ROTATE_COORDS m a a).1
      omega
  · refine ⟨if m.rotspec.flags &&& K.ROW_COL_SWAP ≠ 0 then K.PROTO_40h_LED_ROW
        else K.PROTO_40h_LED_COL,
      if m.rotspec.flags &&& K.COL_REVBITS ≠ 0 then REVERSE_BYTE (data 0 % 256) % 256
        else data 0 % 256, ?_, ?_, ?_, opcode_nibble_kept _ _ (and_seven_lt _)⟩
    · split <;> simp
    · rw [led_col_eq K m a offset count data hne, monome_write_snd]; rfl
    · have := and_seven_lt (ROTATE_COORDS m a a).2
      omega
  · intro hid hfl hR hC hd
    have hr := Nat.mod_eq_of_lt (lor_lt_256 _ _ hR (and_seven_lt a))
    have hc := Nat.mod_eq_of_lt (lor_lt_256 _ _ hC (and_seven_lt a))
    have hd' := Nat.mod_eq_of_lt hd
    constructor
    · rw [led_row_eq, monome_write_snd]
      simp [ROTATE_COORDS, hid, hfl, hr, hd']
    · rw [led_col_eq K m a offset count data hne, monome_write_snd]
      simp [ROTATE_COORDS, hid, hfl, hc, hd']

/-- An instance of C10 on the identity orientation: row 13 with data 0xA5 is sent as
[0x75, 0xA5], column 13 as [0x85, 0xA5], whatever offset and count are. -/
theorem led_row_col_one_command_witness :
    (proto_40h_led_row K40h (session 8 8 rotspec_0) 13 3 9 (ptr [0xA5])).2.written
      = [[0x75, 0xA5]] ∧
    (proto_40h_led_col K40h (session 8 8 rotspec_0) 13 3 9 (ptr [0xA5])).2.written
      = [[0x85, 0xA5]] :=
  (led_row_col_one_command K40h (session 8 8 rotspec_0) 13 3 9 (ptr [0xA5])
    (by decide)).2.2.1 (fun _ _ => rfl) rfl (by decide) (by decide) (by decide)

/-! ## The relabeling under ROW_COL_SWAP -/

/-- The relabeling of the row opcode adds 0x10 to it. -/
theorem row_col_swap_row (K : decls) :
    row_col_swap K K.PROTO_40h_LED_ROW = 16 + K.PROTO_40h_LED_ROW := by
  simp [row_col_swap, lnot]

/-- The relabeling of every other mode is the row opcode. -/
theorem row_col_swap_other (K : decls) (mode : Nat) (h : mode ≠ K.PROTO_40h_LED_ROW) :
    row_col_swap K mode = K.PROTO_40h_LED_ROW := by
  have h2 : ¬ ((mode : Int) - (K.PROTO_40h_LED_ROW : Int) = 0) := by
    intro h'; apply h; omega
  simp [row_col_swap, lnot, h2]

/-- Claim C11, the row/column swap relabeling: when the ROW_COL_SWAP flag of the
orientation is set, the command emitted by `proto_40h_led_row` carries the
column-write opcode and the one emitted by `proto_40h_led_col` the row-write opcode,
these being what `(!(mode - ROW) << 4) + ROW` maps ROW and COL to; when the flag is
clear each command carries the operation's own opcode; and relabeling twice gives
back the original opcode. The column opcode is the row opcode plus 0x10, as the
expression needs. -/
theorem row_col_swap_relabels (K : decls) (m : monome_t) (a offset count : Nat)
    (data : Nat → Nat) (hcol : K.PROTO_40h_LED_COL = K.PROTO_40h_LED_ROW + 16) :
    (m.rotspec.flags &&& K.ROW_COL_SWAP ≠ 0 →
      (∃ p, (proto_40h_led_row K m a offset count data).2.written
        = m.written ++ [[(K.PROTO_40h_LED_COL ||| ((ROTATE_COORDS m a a).1 &&& 7)) % 256, p]]) ∧
      (∃ p, (proto_40h_led_col K m a offset count data).2.written
        = m.written ++ [[(K.PROTO_40h_LED_ROW ||| ((ROTATE_COORDS m a a).2 &&& 7)) % 256, p]])) ∧
    (m.rotspec.flags &&& K.ROW_COL_SWAP = 0 →
      (∃ p, (proto_40h_led_row K m a offset count data).2.written
        = m.written ++ [[(K.PROTO_40h_LED_ROW ||| ((ROTATE_COORDS m a a).1 &&& 7)) % 256, p]]) ∧
      (∃ p, (proto_40h_led_col K m a offset count data).2.written
        = m.written ++ [[(K.PROTO_40h_LED_COL ||| ((ROTATE_COORDS m a a).2 &&& 7)) % 256, p]])) ∧
    row_col_swap K K.PROTO_40h_LED_ROW = K.PROTO_40h_LED_COL ∧
    row_col_swap K K.PROTO_40h_LED_COL = K.PROTO_40h_LED_ROW ∧
    row_col_swap K (row_col_swap K K.PROTO_40h_LED_ROW) = K.PROTO_40h_LED_ROW ∧
    row_col_swap K (row_col_swap K K.PROTO_40h_LED_COL) = K.PROTO_40h_LED_COL := by
  have hne : K.PROTO_40h_LED_ROW ≠ K.PROTO_40h_LED_COL := by omega
  have hR : row_col_swap K K.PROTO_40h_LED_ROW = K.PROTO_40h_LED_COL := by
    rw [row_col_swap_row, hcol]; omega
  have hC : row_col_swap K K.PROTO_40h_LED_COL = K.PROTO_40h_LED_ROW :=
    row_col_swap_other K _ (fun h => hne h.symm)
  have row : ∀ op, (if m.rotspec.flags &&& K.ROW_COL_SWAP ≠ 0 then 16 + K.PROTO_40h_LED_ROW
        else K.PROTO_40h_LED_ROW) = op →
      ∃ p, (proto_40h_led_row K m a offset count data).2.written
        = m.written ++ [[(op ||| ((ROTATE_COORDS m a a).1 &&& 7)) % 256, p]] :=
    fun op h =>
      ⟨if m.rotspec.flags &&& K.ROW_REVBITS ≠ 0 then REVERSE_BYTE (data 0 % 256) % 256
        else data 0 % 256, by rw [led_row_eq, monome_write_snd, h]; rfl⟩
  have col : ∀ op, (if m.rotspec.flags &&& K.ROW_COL_SWAP ≠ 0 then K.PROTO_40h_LED_ROW
        else K.PROTO_40h_LED_COL) = op →
      ∃ p, (proto_40h_led_col K m a offset count data).2.written
        = m.written ++ [[(op ||| ((ROTATE_COORDS m a a).2 &&& 7)) % 256, p]] :=
    fun op h =>
      ⟨if m.rotspec.flags &&& K.COL_REVBITS ≠ 0 then REVERSE_BYTE (data 0 % 256) % 256
        else data 0 % 256,
        by rw [led_col_eq K m a offset count data hne, monome_write_snd, h]; rfl⟩
  refine ⟨fun hs => ⟨row _ ?_, col _ ?_⟩, fun hs => ⟨row _ ?_, col _ ?_⟩, hR, hC, ?_, ?_⟩
  · rw [if_pos hs, hcol, Nat.add_comm]
  · rw [if_pos hs]
  · rw [if_neg (not_not.mpr hs)]
  · rw [if_neg (not_not.mpr hs)]
  · rw [hR, hC]
  · rw [hC, hR]

/-- An instance of C11 with ROW_COL_SWAP set (flag word 1) on the identity
callbacks: row 2 goes out under the column opcode 0x80, column 2 under the row
opcode 0x70. -/
theorem row_col_swap_relabels_witness :
    (proto_40h_led_row K40h (with_flags (session 8 8 rotspec_0) 1) 2 0 1 (ptr [0x0F])).2.written
      = [[0x82, 0x0F]] ∧
    (proto_40h_led_col K40h (with_flags (session 8 8 rotspec_0) 1) 2 0 1 (ptr [0x0F])).2.written
      = [[0x72, 0x0F]] ∧
    row_col_swap K40h (row_col_swap K40h 0x70) = 0x70 :=
  ⟨by decide, by decide,
    (row_col_swap_relabels K40h (with_flags (session 8 8 rotspec_0) 1) 2 0 1 (ptr [0x0F])
      rfl).2.2.2.2.1⟩

/-! ## Bit reversal of the payload -/

set_option maxRecDepth 100000 in
/-- The byte reversal, checked on all 256 bytes: the result is a byte, reversing
twice gives the byte back, and bit `i` of the result is bit `7 - i` of the byte. -/
theorem REVERSE_BYTE_table : ∀ b : Fin 256,
    REVERSE_BYTE b.val < 256 ∧ REVERSE_BYTE (REVERSE_BYTE b.val) = b.val ∧
    ∀ i : Fin 8, (REVERSE_BYTE b.val).testBit i.val = b.val.testBit (7 - i.val) := by
  decide

/-- The payload of a command read back from the log. -/
theorem payload_monome_write (m : monome_t) (b0 b1 : Nat) :
    payload (monome_write m [b0, b1] 2) = b1 := by
  simp [payload, monome_write_snd]

/-- Claim C12, axis-appropriate bit reversal: for every data byte d, the payload
emitted by `proto_40h_led_row` is bit_reverse(d) when ROW_REVBITS is set and d
otherwise, and the payload emitted by `proto_40h_led_col` is bit_reverse(d) when
COL_REVBITS is set and d otherwise; for a byte that is not its own reversal the
payload is bit_reverse(d) if and only if the flag of the operation's own axis is
set; and two sessions that agree on that flag give the same payload, whatever
their other flags, ROW_COL_SWAP included, and their rotation. -/
theorem row_col_payload_reversal (K : decls) (m : monome_t) (a offset count : Nat)
    (data : Nat → Nat) (hne : K.PROTO_40h_LED_ROW ≠ K.PROTO_40h_LED_COL)
    (hd : data 0 < 256) :
    payload (proto_40h_led_row K m a offset count data)
      = (if m.rotspec.flags &&& K.ROW_REVBITS ≠ 0 then REVERSE_BYTE (data 0) else data 0) ∧
    payload (proto_40h_led_col K m a offset count data)
      = (if m.rotspec.flags &&& K.COL_REVBITS ≠ 0 then REVERSE_BYTE (data 0) else data 0) ∧
    (REVERSE_BYTE (data 0) ≠ data 0 →
      (payload (proto_40h_led_row K m a offset count data) = REVERSE_BYTE (data 0)
        ↔ m.rotspec.flags &&& K.ROW_REVBITS ≠ 0) ∧
      (payload (proto_40h_led_col K m a offset count data) = REVERSE_BYTE (data 0)
        ↔ m.rotspec.flags &&& K.COL_REVBITS ≠ 0)) ∧
    (∀ (m' : monome_t) (a' : Nat),
      ((m'.rotspec.flags &&& K.ROW_REVBITS ≠ 0 ↔ m.rotspec.flags &&& K.ROW_REVBITS ≠ 0) →
        payload (proto_40h_led_row K m' a' offset count data)
          = payload (proto_40h_led_row K m a offset count data)) ∧
      ((m'.rotspec.flags &&& K.COL_REVBITS ≠ 0 ↔ m.rotspec.flags &&& K.COL_REVBITS ≠ 0) →
        payload (proto_40h_led_col K m' a' offset count data)
          = payload (proto_40h_led_col K m a offset count data))) := by
  have hmod : data 0 % 256 = data 0 := Nat.mod_eq_of_lt hd
  have hrev : REVERSE_BYTE (data 0) % 256 = REVERSE_BYTE (data 0) :=
    Nat.mod_eq_of_lt (REVERSE_BYTE_table ⟨data 0, hd⟩).1
  have row : ∀ (s : monome_t) (t : Nat), payload (proto_40h_led_row K s t offset count data)
      = (if s.rotspec.flags &&& K.ROW_REVBITS ≠ 0 then REVERSE_BYTE (data 0) else data 0) := by
    intro s t
    rw [led_row_eq, payload_monome_write, hmod, hrev]
  have col : ∀ (s : monome_t) (t : Nat), payload (proto_40h_led_col K s t offset count data)
      = (if s.rotspec.flags &&& K.COL_REVBITS ≠ 0 then REVERSE_BYTE (data 0) else data 0) := by
    intro s t
    rw [led_col_eq K s t offset count data hne, payload_monome_write, hmod, hrev]
  refine ⟨row m a, col m a, fun hp => ⟨?_, ?_⟩, fun m' a' => ⟨fun h => ?_, fun h => ?_⟩⟩
  · rw [row]
    by_cases hf : m.rotspec.flags &&& K.ROW_REVBITS ≠ 0
    · simp [hf]
    · simp [hf, Ne.symm hp]
  · rw [col]
    by_cases hf : m.rotspec.flags &&& K.COL_REVBITS ≠ 0
    · simp [hf]
    · simp [hf, Ne.symm hp]
  · rw [row, row]
    by_cases hf : m.rotspec.flags &&& K.ROW_REVBITS ≠ 0
    · rw [if_pos hf, if_pos (h.mpr hf)]
    · rw [if_neg hf, if_neg (fun h' => hf (h.mp h'))]
  · rw [col, col]
    by_cases hf : m.rotspec.flags &&& K.COL_REVBITS ≠ 0
    · rw [if_pos hf, if_pos (h.mpr hf)]
    · rw [if_neg hf, if_neg (fun h' => hf (h.mp h'))]

/-- An instance of C12 with only ROW_REVBITS set (flag word 2): the row write of
0x01 carries the payload 0x80, the column write of 0x01 carries 0x01. -/
theorem row_col_payload_reversal_witness :
    payload (proto_40h_led_row K40h (with_flags (session 8 8 rotspec_0) 2) 3 0 1 (ptr [0x01]))
      = 0x80 ∧
    payload (proto_40h_led_col K40h (with_flags (session 8 8 rotspec_0) 2) 3 0 1 (ptr [0x01]))
      = 0x01 :=
  ⟨(row_col_payload_reversal K40h (with_flags (session 8 8 rotspec_0) 2) 3 0 1 (ptr [0x01])
      (by decide) (by decide)).1,
    (row_col_payload_reversal K40h (with_flags (session 8 8 rotspec_0) 2) 3 0 1 (ptr [0x01])
      (by decide) (by decide)).2.1⟩

/-- Claim C17: the byte reversal used for row and column payloads is the exact 8-bit
bit-order inversion, bit `i` of the result being bit `7 - i` of the byte, for every
one of the 256 byte values; its result is a byte; it is an involution,
bit_reverse(bit_reverse(b)) = b; and bit_reverse(0x00) = 0x00,
bit_reverse(0xFF) = 0xFF, bit_reverse(0x01) = 0x80. -/
theorem REVERSE_BYTE_bit_inversion (b : Nat) (hb : b < 256) :
    (∀ i, i < 8 → (REVERSE_BYTE b).testBit i = b.testBit (7 - i)) ∧
    REVERSE_BYTE b < 256 ∧
    REVERSE_BYTE (REVERSE_BYTE b) = b ∧
    REVERSE_BYTE 0x00 = 0x00 ∧ REVERSE_BYTE 0xFF = 0xFF ∧ REVERSE_BYTE 0x01 = 0x80 := by
  obtain ⟨h1, h2, h3⟩ := REVERSE_BYTE_table ⟨b, hb⟩
  exact ⟨fun i hi => h3 ⟨i, hi⟩, h1, h2, by decide, by decide, by decide⟩

/-- An instance of C17 at the byte 0x2C, whose reversal is 0x34. -/
theorem REVERSE_BYTE_bit_inversion_witness :
    REVERSE_BYTE 0x2C = 0x34 ∧ REVERSE_BYTE (REVERSE_BYTE 0x2C) = 0x2C :=
  ⟨by decide, (REVERSE_BYTE_bit_inversion 0x2C (by decide)).2.2.1⟩

/-! ## Transport failure -/

/-- A call of `proto_40h_led_col_row` for the row or the column mode builds one
2-byte buffer and passes it to `monome_write`. -/
theorem led_col_row_writes_once (K : decls) (m : monome_t) (mode a : Nat) (data : Nat → Nat)
    (hm : mode = K.PROTO_40h_LED_ROW ∨ mode = K.PROTO_40h_LED_COL) :
    ∃ b0 b1, proto_40h_led_col_row K m mode a data = monome_write m [b0, b1] 2 := by
  by_cases h : mode = K.PROTO_40h_LED_ROW
  · exact ⟨_, _, by simp only [proto_40h_led_col_row, if_pos h]; rfl⟩
  · have h' : mode = K.PROTO_40h_LED_COL := hm.resolve_left h
    exact ⟨_, _, by simp only [proto_40h_led_col_row, if_neg h, if_pos h']; rfl⟩

/-- What one `monome_write` of a 2-byte buffer does: one call of the transport with
that buffer, and the result 0 when the transport reports 2, else -1. -/
theorem monome_write_once (m : monome_t) (b0 b1 : Nat) :
    ∃ buf : List Nat, buf.length = 2 ∧
      (monome_write m [b0, b1] 2).2.written = m.written ++ [buf] ∧
      (monome_write m [b0, b1] 2).1
        = (if m.wres m.written.length buf = 2 then 0 else -1) :=
  ⟨[b0, b1], rfl, by rw [monome_write_snd]; rfl, by rw [monome_write_fst]; rfl⟩

/-- Claim C13, transport failure is surfaced and never retried: `proto_40h_led`,
`proto_40h_intensity`, `proto_40h_led_row` and `proto_40h_led_col` each call the
transport write exactly once, with a 2-byte buffer, and return 0 if and only if the
transport reports exactly 2 bytes written; for every other report (short write,
zero, negative) they return -1. -/
theorem write_failure_is_surfaced (K : decls) (m : monome_t) (x y on_ brightness a offset
    count : Nat) (data : Nat → Nat) :
    (∃ buf : List Nat, buf.length = 2 ∧
      (proto_40h_led K m x y on_).2.written = m.written ++ [buf] ∧
      (proto_40h_led K m x y on_).1 = (if m.wres m.written.length buf = 2 then 0 else -1)) ∧
    (∃ buf : List Nat, buf.length = 2 ∧
      (proto_40h_intensity K m brightness).2.written = m.written ++ [buf] ∧
      (proto_40h_intensity K m brightness).1
        = (if m.wres m.written.length buf = 2 then 0 else -1)) ∧
    (∃ buf : List Nat, buf.length = 2 ∧
      (proto_40h_led_row K m a offset count data).2.written = m.written ++ [buf] ∧
      (proto_40h_led_row K m a offset count data).1
        = (if m.wres m.written.length buf = 2 then 0 else -1)) ∧
    (∃ buf : List Nat, buf.length = 2 ∧
      (proto_40h_led_col K m a offset count data).2.written = m.written ++ [buf] ∧
      (proto_40h_led_col K m a offset count data).1
        = (if m.wres m.written.length buf = 2 then 0 else -1)) := by
  refine ⟨monome_write_once m _ _, monome_write_once m _ _, ?_, ?_⟩
  · obtain ⟨b0, b1, h⟩ := led_col_row_writes_once K m K.PROTO_40h_LED_ROW a data (Or.inl rfl)
    have h' : proto_40h_led_row K m a offset count data = monome_write m [b0, b1] 2 := h
    rw [h']
    exact monome_write_once m b0 b1
  · obtain ⟨b0, b1, h⟩ := led_col_row_writes_once K m K.PROTO_40h_LED_COL a data (Or.inr rfl)
    have h' : proto_40h_led_col K m a offset count data = monome_write m [b0, b1] 2 := h
    rw [h']
    exact monome_write_once m b0 b1

/-! ## Intensity and mode -/

/-- Claim C15: for every brightness value, in or out of the device range 0..15,
`proto_40h_intensity` emits exactly one 2-byte command
[INTENSITY_OPCODE, brightness mod 256]: the opcode byte carries no address bits, and
the brightness is passed through with no clamping or range check other than the
truncation to 8 bits. The opcode is a byte. -/
theorem intensity_emits_one_command (K : decls) (m : monome_t) (brightness : Nat)
    (hI : K.PROTO_40h_INTENSITY < 256) :
    (proto_40h_intensity K m brightness).2.written
      = m.written ++ [[K.PROTO_40h_INTENSITY, brightness % 256]] := by
  simp [proto_40h_intensity, monome_write_snd, Nat.mod_eq_of_lt hI]

/-- An instance of C15: the brightness 300, out of the device range, goes out
as 300 mod 256 = 44 behind the opcode 0x30. -/
theorem intensity_emits_one_command_witness :
    (proto_40h_intensity K40h (session 8 8 rotspec_0) 300).2.written = [[0x30, 44]] :=
  intensity_emits_one_command K40h (session 8 8 rotspec_0) 300 (by decide)

/-- Claim C16: for every mode value and every session state, `proto_40h_mode` returns 0,
emits no bytes to the transport and leaves the session unchanged. -/
theorem mode_is_a_no_op (K : decls) (m : monome_t) (mode : Nat) :
    (proto_40h_mode K m mode).1 = 0 ∧
    (proto_40h_mode K m mode).2.written = m.written ∧
    (proto_40h_mode K m mode).2 = m :=
  ⟨rfl, rfl, rfl⟩

/-! ## The result of clear -/

/-- The log after `proto_40h_clear`: the 8 row writes, whatever the transport reports. -/
theorem clear_written (K : decls) (m : monome_t) (status : Nat) :
    (proto_40h_clear K m status).2.written
      = m.written ++ (List.range 8).map (fun i => [(K.PROTO_40h_LED_ROW ||| i) % 256, 0]) := by
  simp [proto_40h_clear, for_loop, monome_write_snd, List.range_succ]

/-- Claim C14 fails as stated: on a transport that accepts one byte of every buffer,
`proto_40h_clear` returns 16 while the transport has accepted 8 bytes in all: the
results of `monome_write` are discarded and the value returned is
`sizeof(buf) * i`, the bytes handed over. -/
theorem clear_result_ignores_transport :
    (proto_40h_clear K40h short_writer 0).1 = 16 ∧
    bytes_accepted short_writer.wres (proto_40h_clear K40h short_writer 0).2.written
      short_writer.written.length 8 = 8 ∧
    (proto_40h_clear K40h short_writer 0).1 ≠
      bytes_accepted short_writer.wres (proto_40h_clear K40h short_writer 0).2.written
        short_writer.written.length 8 := by
  decide

/-- Claim C14 as amended: for every behaviour of the transport, `proto_40h_clear`
returns 16, the number of bytes it hands to the transport (8 commands of 2 bytes);
this is the sum of the byte counts the transport accepted when the transport
accepts each of the 8 commands whole. -/
theorem clear_returns_bytes_handed_over (K : decls) (m : monome_t) (status : Nat) :
    (proto_40h_clear K m status).1 = 16 ∧
    (((proto_40h_clear K m status).2.written.drop m.written.length).map List.length).sum = 16 ∧
    ((∀ k, k < 8 → m.wres (m.written.length + k)
          ((proto_40h_clear K m status).2.written.getD (m.written.length + k) []) = 2) →
      bytes_accepted m.wres (proto_40h_clear K m status).2.written m.written.length 8
        = (proto_40h_clear K m status).1) := by
  have hret : (proto_40h_clear K m status).1 = 16 := by
    simp [proto_40h_clear, for_loop]
  refine ⟨hret, ?_, fun h => ?_⟩
  · rw [clear_written]
    simp [List.range_succ]
  · have hk : ∀ k ∈ List.range 8, max 0 (m.wres (m.written.length + k)
          ((proto_40h_clear K m status).2.written.getD (m.written.length + k) [])) = (2 : Int) := by
      intro k hk
      rw [h k (List.mem_range.mp hk)]
      rfl
    rw [hret]
    unfold bytes_accepted
    rw [List.map_congr_left hk]
    simp

/-- An instance of the amended C14 on a transport that accepts every command
whole: 16 bytes accepted, 16 returned. -/
theorem clear_returns_bytes_handed_over_witness :
    bytes_accepted (session 8 8 rotspec_0).wres
        (proto_40h_clear K40h (session 8 8 rotspec_0) 0).2.written
        (session 8 8 rotspec_0).written.length 8
      = (proto_40h_clear K40h (session 8 8 rotspec_0) 0).1 :=
  (clear_returns_bytes_handed_over K40h (session 8 8 rotspec_0) 0).2.2 (by decide)

/-! ## The rotation round trip -/

/-- Subtracting twice from the same `uint_t` gives the value back. -/
theorem usub_usub (c x : Nat) (hx : x ≤ c) (hc : c < 2 ^ 32) : usub c (usub c x) = x := by
  unfold usub
  norm_num at hc ⊢
  omega

/-- The last row or column, `extent - 1`, of a non-empty extent. -/
theorem usub_one (c : Nat) (h0 : 0 < c) (hc : c < 2 ^ 32) : usub c 1 = c - 1 := by
  unfold usub
  norm_num at hc ⊢
  omega

/-- Claim C18, the rotation round trip: for every orientation O (0, 90, 180, 270
degrees) of a session and every coordinate pair (x, y) within the grid,
unrotate(O, rotate(O, x, y)) = (x, y), with rotate the transform applied by
`ROTATE_COORDS` and unrotate the one applied by `UNROTATE_COORDS`. The extent of
the session fits a `uint_t`. -/
theorem rotation_round_trip (O : monome_rotate_t) (m : monome_t) (x y : Nat)
    (hout : m.rotspec.output_cb = rotate O) (hin : m.rotspec.input_cb = unrotate O)
    (hx : x < m.cols) (hy : y < m.rows) (hc : m.cols < 2 ^ 32) (hr : m.rows < 2 ^ 32) :
    UNROTATE_COORDS m (ROTATE_COORDS m x y).1 (ROTATE_COORDS m x y).2 = (x, y) := by
  have c1 := usub_one m.cols (by omega) hc
  have r1 := usub_one m.rows (by omega) hr
  have cx := usub_usub (m.cols - 1) x (by omega) (by omega)
  have ry := usub_usub (m.rows - 1) y (by omega) (by omega)
  cases O <;>
    simp [UNROTATE_COORDS, ROTATE_COORDS, hout, hin, rotate, unrotate, r0_cb, r90_output_cb,
      r90_input_cb, r180_cb, r270_output_cb, r270_input_cb, c1, r1, cx, ry]

/-- An instance of C18 on an 8x8 session rotated by 270 degrees: (1, 6) is sent
as (1, 1) and comes back as (1, 6). -/
theorem rotation_round_trip_witness :
    ROTATE_COORDS (session 8 8 (rotspec_of .MONOME_ROTATE_270 r0_frame_cb 0)) 1 6 = (1, 1) ∧
    UNROTATE_COORDS (session 8 8 (rotspec_of .MONOME_ROTATE_270 r0_frame_cb 0))
        (ROTATE_COORDS (session 8 8 (rotspec_of .MONOME_ROTATE_270 r0_frame_cb 0)) 1 6).1
        (ROTATE_COORDS (session 8 8 (rotspec_of .MONOME_ROTATE_270 r0_frame_cb 0)) 1 6).2
      = (1, 6) :=
  ⟨by decide,
    rotation_round_trip .MONOME_ROTATE_270
      (session 8 8 (rotspec_of .MONOME_ROTATE_270 r0_frame_cb 0)) 1 6 rfl rfl
      (by decide) (by decide) (by decide) (by decide)⟩

/-! ## The working buffer of the frame write -/

/-- The copy stores to the offsets 1..8, on either platform. -/
theorem mem_store_offsets (K : decls) (i : Nat) :
    i ∈ led_frame_store_offsets K ↔ 1 ≤ i ∧ i ≤ 8 := by
  unfold led_frame_store_offsets
  cases K.LP64 <;> simp [List.range_succ] <;> omega

/-- The storage of `buf` after the copy: `frame_data[i - 1]` at the offsets the copy
stores to, and what the stack held everywhere else. -/
theorem led_frame_copy_eq (K : decls) (stack f : Nat → Nat) (i : Nat) :
    led_frame_copy K stack f i
      = if i ∈ led_frame_store_offsets K then f (i - 1) % 256 else stack i := by
  have hm := mem_store_offsets K i
  have e0 : 0 + (i - 1) = i - 1 := by omega
  by_cases hi : i ∈ led_frame_store_offsets K
  · rw [if_pos hi]
    have hb := hm.mp hi
    unfold led_frame_copy
    cases K.LP64
    · simp only [Bool.false_eq_true, if_false, store_bytes]
      by_cases h5 : 5 ≤ i ∧ i < 5 + 4
      · have : 4 + (i - 5) = i - 1 := by omega
        rw [if_pos h5, this]
      · rw [if_neg h5, if_pos (by omega), e0]
    · simp only [if_true, store_bytes]
      rw [if_pos (by omega), e0]
  · rw [if_neg hi]
    have hb : ¬ (1 ≤ i ∧ i ≤ 8) := fun h => hi (hm.mpr h)
    unfold led_frame_copy
    cases K.LP64
    · simp only [Bool.false_eq_true, if_false, store_bytes]
      rw [if_neg (by omega), if_neg (by omega)]
    · simp only [if_true, store_bytes]
      rw [if_neg (by omega)]

/-- The function `proto_40h_led_frame` reads its payloads from the buffer that
`led_frame_copy` leaves and the frame callback then works on. -/
theorem led_frame_uses_copy (K : decls) (m : monome_t) (x_off y_off : Nat)
    (f stack : Nat → Nat) :
    proto_40h_led_frame K m x_off y_off f stack
      = (for_loop
          (fun i (s : Int × monome_t) =>
            let c := proto_40h_led_col_row K s.2 K.PROTO_40h_LED_ROW i
              (fun j => m.rotspec.frame_cb m.rows m.cols x_off y_off
                (led_frame_copy K stack f) (i + j))
            (s.1 + c.1, c.2)) 8 0 (0, m)).2 := rfl

/-- Claim C19 fails on the code: the copy of `proto_40h_led_frame` stores to the
offsets 1..8 of its 8-byte buffer, so `frame_data[7]` is written at index 8,
outside 0..7, and `buf[0]`, which the loop reads as the payload of row 0, is not
written by the copy: under the identity orientation the first command carries the
byte the stack held there. -/
theorem led_frame_buffer_is_misaddressed (K : decls) (f stack : Nat → Nat) :
    ¬ (∀ i ∈ led_frame_store_offsets K, i ≤ 7) ∧
    ¬ (∀ i ∈ led_frame_load_offsets, i ∈ led_frame_store_offsets K) ∧
    led_frame_copy K stack f 8 = f 7 % 256 ∧
    led_frame_copy K stack f 0 = stack 0 ∧
    (proto_40h_led_frame K (session 8 8 rotspec_0) 0 0 f stack).2.written.head?
      = some [(K.PROTO_40h_LED_ROW ||| 0) % 256, stack 0 % 256] := by
  have h8 : 8 ∈ led_frame_store_offsets K := (mem_store_offsets K 8).mpr (by omega)
  have h0 : 0 ∉ led_frame_store_offsets K := fun h => by
    have := (mem_store_offsets K 0).mp h
    omega
  refine ⟨fun h => ?_, fun h => ?_, ?_, ?_, ?_⟩
  · have := h 8 h8
    omega
  · exact h0 (h 0 (by decide))
  · rw [led_frame_copy_eq, if_pos h8]
  · rw [led_frame_copy_eq, if_neg h0]
  · rw [led_frame_written_id K (session 8 8 rotspec_0) 0 0 f stack (fun _ _ => rfl) rfl
      (fun _ => rfl)]
    rfl

/-! ## The result of the frame write -/

/-- No call fails among none. -/
theorem failed_writes_zero (w : Nat → List Nat → Int) (log : List (List Nat)) (k0 : Nat) :
    failed_writes w log k0 0 = 0 := rfl

/-- The failed calls among `n + 1`: the first one, and those among the `n` after it. -/
theorem failed_writes_succ (w : Nat → List Nat → Int) (log : List (List Nat)) (k0 n : Nat) :
    failed_writes w log k0 (n + 1)
      = (if w k0 (log.getD k0 []) = 2 then 0 else 1) + failed_writes w log (k0 + 1) n := by
  have hf : ((fun k => decide (w (k0 + k) (log.getD (k0 + k) []) ≠ 2)) ∘ Nat.succ)
      = (fun k => decide (w (k0 + 1 + k) (log.getD (k0 + 1 + k) []) ≠ 2)) := by
    funext k
    have : k0 + k.succ = k0 + 1 + k := by omega
    simp only [Function.comp, this]
  unfold failed_writes
  rw [List.range_succ_eq_map, List.filter_cons, List.filter_map, hf]
  by_cases h : w k0 (log.getD k0 []) = 2
  · simp [h, -List.getD_eq_getElem?_getD]
  · simp [h, -List.getD_eq_getElem?_getD]
    omega

/-- At most `n` calls fail among `n`. -/
theorem failed_writes_le (w : Nat → List Nat → Int) (log : List (List Nat)) (k0 n : Nat) :
    failed_writes w log k0 n ≤ n := by
  unfold failed_writes
  exact le_trans (List.length_filter_le _ _) (by simp)

/-- No call fails exactly when every call reports 2 bytes. -/
theorem failed_writes_eq_zero (w : Nat → List Nat → Int) (log : List (List Nat)) (k0 n : Nat) :
    failed_writes w log k0 n = 0 ↔ ∀ k, k < n → w (k0 + k) (log.getD (k0 + k) []) = 2 := by
  unfold failed_writes
  simp [List.filter_eq_nil_iff]

/-- A loop whose every round does one `monome_write` of a 2-byte buffer and adds its
result: after `n` rounds the log has grown by `n` 2-byte buffers, failed writes or
not, and the sum has dropped by the number of failed writes. -/
theorem write_loop (body : Nat → Int × monome_t → Int × monome_t)
    (hbody : ∀ i s, ∃ b0 b1, body i s
      = (s.1 + (monome_write s.2 [b0, b1] 2).1, (monome_write s.2 [b0, b1] 2).2))
    (n : Nat) : ∀ (i : Nat) (acc : Int) (m : monome_t),
      ∃ l : List (List Nat), l.length = n ∧ (∀ b ∈ l, b.length = 2) ∧
        (for_loop body n i (acc, m)).2.2.written = m.written ++ l ∧
        (for_loop body n i (acc, m)).2.2.wres = m.wres ∧
        (for_loop body n i (acc, m)).2.1
          = acc - (failed_writes m.wres (m.written ++ l) m.written.length n : Int) := by
  induction n with
  | zero =>
    intro i acc m
    exact ⟨[], rfl, by simp, by simp [for_loop], rfl, by simp [for_loop, failed_writes_zero]⟩
  | succ n ih =>
    intro i acc m
    obtain ⟨b0, b1, hb⟩ := hbody i (acc, m)
    obtain ⟨l, hl, hl2, hw, hres, hret⟩ := ih (i + 1)
      (acc + (monome_write m [b0, b1] 2).1) (monome_write m [b0, b1] 2).2
    have hm1 : (monome_write m [b0, b1] 2).2.written = m.written ++ [[b0, b1]] := by
      rw [monome_write_snd]; rfl
    have hw1 : (monome_write m [b0, b1] 2).2.wres = m.wres := by
      rw [monome_write_snd]
    have hstep : for_loop body (n + 1) i (acc, m)
        = for_loop body n (i + 1)
            (acc + (monome_write m [b0, b1] 2).1, (monome_write m [b0, b1] 2).2) := by
      rw [← hb]; rfl
    have happ : m.written ++ [[b0, b1]] ++ l = m.written ++ [b0, b1] :: l := by simp
    refine ⟨[b0, b1] :: l, by simp [hl], ?_, ?_, ?_, ?_⟩
    · intro b hbm
      rcases List.mem_cons.mp hbm with h | h
      · rw [h]; rfl
      · exact hl2 b h
    · rw [hstep, hw, hm1, happ]
    · rw [hstep, hres, hw1]
    · rw [hstep, hret, hm1, hw1, happ, failed_writes_succ, monome_write_fst]
      have hg : (m.written ++ [b0, b1] :: l).getD m.written.length [] = [b0, b1] := by
        rw [List.getD_append_right _ _ _ _ (le_refl _)]
        simp
      have hlen : (m.written ++ [[b0, b1]]).length = m.written.length + 1 := by simp
      rw [hg, hlen]
      have ht : List.take 2 [b0, b1] = [b0, b1] := rfl
      rw [ht]
      by_cases h : m.wres m.written.length [b0, b1] = 2
      · simp [h]
      · have h' : ¬ m.wres m.written.length [b0, b1] = ((2 : Nat) : Int) := h
        simp [h, h']
        omega

/-- The function `proto_40h_led_frame`, as defined byte by byte, is the rows part on
the buffer the copy leaves. -/
theorem led_frame_eq_rows (K : decls) (m : monome_t) (x_off y_off : Nat)
    (f stack : Nat → Nat) :
    proto_40h_led_frame K m x_off y_off f stack
      = proto_40h_led_frame_rows K m x_off y_off (led_frame_copy K stack f) := rfl

/-- The loop of the frame write under transport failure, on any working buffer: it
attempts all 8 row-write commands, each a 2-byte buffer, also after an earlier one
has failed, and the sum of their results is -k, where k in 0..8 is the number of
commands whose write did not report 2 bytes; so the sum is 0 if and only if all 8
transport writes accepted exactly 2 bytes. -/
theorem led_frame_rows_count_failures (K : decls) (m : monome_t) (x_off y_off : Nat)
    (buf : Nat → Nat) :
    ∃ l : List (List Nat), l.length = 8 ∧ (∀ b ∈ l, b.length = 2) ∧
      (proto_40h_led_frame_rows K m x_off y_off buf).2.written = m.written ++ l ∧
      (proto_40h_led_frame_rows K m x_off y_off buf).1
        = -(failed_writes m.wres (proto_40h_led_frame_rows K m x_off y_off buf).2.written
              m.written.length 8 : Int) ∧
      failed_writes m.wres (proto_40h_led_frame_rows K m x_off y_off buf).2.written
        m.written.length 8 ≤ 8 ∧
      ((proto_40h_led_frame_rows K m x_off y_off buf).1 = 0 ↔
        ∀ k, k < 8 → m.wres (m.written.length + k)
          ((proto_40h_led_frame_rows K m x_off y_off buf).2.written.getD
            (m.written.length + k) []) = 2) := by
  obtain ⟨l, hl, hl2, hw, _, hret⟩ := write_loop
    (fun i (s : Int × monome_t) =>
      let c := proto_40h_led_col_row K s.2 K.PROTO_40h_LED_ROW i
        (fun j => m.rotspec.frame_cb m.rows m.cols x_off y_off buf (i + j))
      (s.1 + c.1, c.2))
    (fun i s => by
      obtain ⟨b0, b1, h⟩ := led_col_row_writes_once K s.2 K.PROTO_40h_LED_ROW i
        (fun j => m.rotspec.frame_cb m.rows m.cols x_off y_off buf (i + j)) (Or.inl rfl)
      exact ⟨b0, b1, by simp only [h]⟩)
    8 0 0 m
  have hdef : proto_40h_led_frame_rows K m x_off y_off buf
      = (for_loop
          (fun i (s : Int × monome_t) =>
            let c := proto_40h_led_col_row K s.2 K.PROTO_40h_LED_ROW i
              (fun j => m.rotspec.frame_cb m.rows m.cols x_off y_off buf (i + j))
            (s.1 + c.1, c.2)) 8 0 (0, m)).2 := rfl
  rw [← hdef] at hw hret
  rw [← hw] at hret
  refine ⟨l, hl, hl2, hw, by rw [hret]; simp, failed_writes_le _ _ _ _, ?_⟩
  rw [← failed_writes_eq_zero, hret]
  omega

/-- The loop of the frame write on a transport that fails on its calls number 2
and 5: all 8 commands are attempted and the sum is -2. -/
theorem led_frame_rows_two_failures_example :
    (proto_40h_led_frame_rows K40h flaky_writer 0 0 (ptr [1, 2, 3, 4, 5, 6, 7, 8])).1 = -2 ∧
    (proto_40h_led_frame_rows K40h flaky_writer 0 0
      (ptr [1, 2, 3, 4, 5, 6, 7, 8])).2.written.length = 8 := by
  decide

/-- The copy into a working buffer of `size` elements is defined exactly when every
offset it stores to lies inside the buffer, that is from 9 elements on, and then it
is the copy of `led_frame_copy`. -/
theorem led_frame_copy_in_eq (size : Nat) (K : decls) (stack f : Nat → Nat) :
    led_frame_copy_in size K stack f
      = if ∀ i ∈ led_frame_store_offsets K, i < size then some (led_frame_copy K stack f)
        else none := by
  have hiff : (∀ i ∈ led_frame_store_offsets K, i < size) ↔ 9 ≤ size := by
    constructor
    · intro h
      have := h 8 ((mem_store_offsets K 8).mpr (by omega))
      omega
    · intro h i hi
      have := (mem_store_offsets K i).mp hi
      omega
  by_cases h9 : 9 ≤ size
  · rw [if_pos (hiff.mpr h9)]
    unfold led_frame_copy_in led_frame_copy
    have h5 : 1 + 4 ≤ size := by omega
    have h9a : 1 + 8 ≤ size := by omega
    have h9b : 5 + 4 ≤ size := by omega
    cases K.LP64 <;> simp [store_bytes_in, h5, h9a, h9b]
  · rw [if_neg (fun h => h9 (hiff.mp h))]
    unfold led_frame_copy_in
    have h9a : ¬ 1 + 8 ≤ size := by omega
    have h9b : ¬ 5 + 4 ≤ size := by omega
    cases K.LP64 <;> simp [store_bytes_in, h9a, h9b]

/-- The function with the bound of `buf` enforced is the byte-by-byte function when
every offset the copy stores to lies inside the 8 elements of `buf`, and has no
result otherwise. -/
theorem led_frame_checked_eq (K : decls) (m : monome_t) (x_off y_off : Nat)
    (f stack : Nat → Nat) :
    proto_40h_led_frame_checked K m x_off y_off f stack
      = if ∀ i ∈ led_frame_store_offsets K, i < 8
        then some (proto_40h_led_frame K m x_off y_off f stack) else none := by
  unfold proto_40h_led_frame_checked
  rw [led_frame_copy_in_eq]
  by_cases h : ∀ i ∈ led_frame_store_offsets K, i < 8
  · rw [if_pos h, if_pos h, Option.map_some', led_frame_eq_rows]
  · rw [if_neg h, if_neg h, Option.map_none']

/-- Claim C20 fails on the code: `proto_40h_led_frame` does not return the sum of the
results of its 8 row writes, because it has no defined result at all. Whatever the
frame, the session and the transport, the copy before the loop stores to `buf[8]`,
behind the 8-element array (the 8-byte store at `&buf[1]`, or the 4-byte store at
`&buf[5]`), which is undefined behaviour. The loop by itself does what the claim
says (`led_frame_rows_count_failures`). -/
theorem led_frame_result_is_undefined (K : decls) (m : monome_t) (x_off y_off : Nat)
    (f stack : Nat → Nat) :
    proto_40h_led_frame_checked K m x_off y_off f stack = none := by
  have h8 : ¬ (∀ i ∈ led_frame_store_offsets K, i < 8) := fun h => by
    have := h 8 ((mem_store_offsets K 8).mpr (by omega))
    omega
  rw [led_frame_checked_eq, if_neg h8]

end Proto40h
